import Mathlib

set_option maxRecDepth 100000

/-! # Verification of the zerocode prompt assembler and platform optimizer

Shallow embedding of `src/generator.ts` and `src/platform-optimizer.ts`.
Documents are modelled as `List Char` (one entry per Unicode scalar value);
JavaScript string primitives (`substring`, `indexOf`, `lastIndexOf`, `split`,
`replace` with its `$`-substitution of replacement patterns, regex scanning for
the concrete regexes appearing in the source) are given executable models below.
Fractional threshold comparisons (`* 0.7`, `* 0.9`, `* 0.3`, `* 0.8`) are
modelled as exact rational comparisons over integers. -/

/-! ## JS string primitives over `List Char` -/

/-- Boolean prefix test (JS `String.startsWith` over character lists). -/
def isPre : List Char → List Char → Bool
  | [], _ => true
  | _ :: _, [] => false
  | a :: as, b :: bs => a == b && isPre as bs

/-- Boolean substring test (JS `String.includes`). -/
def containsSubB (p : List Char) : List Char → Bool
  | [] => p.isEmpty
  | c :: tl => isPre p (c :: tl) || containsSubB p tl

/-- Index of the first occurrence of `p` (JS `String.indexOf`; `none` when absent). -/
def indexOfSub (p : List Char) : List Char → Option Nat
  | [] => if p.isEmpty then some 0 else none
  | c :: tl => if isPre p (c :: tl) then some 0 else (indexOfSub p tl).map (· + 1)

/-- Index of the last occurrence of `p` (JS `String.lastIndexOf`; `-1` when absent). -/
def lastIndexOfSub (p : List Char) : List Char → Int
  | [] => if p.isEmpty then 0 else -1
  | c :: tl =>
    let r := lastIndexOfSub p tl
    if 0 ≤ r then r + 1
    else if isPre p (c :: tl) then 0 else -1

/-- Clamp an integer index into `[0, n]` (JS `String.substring` index sanitation). -/
def clampNat (x : Int) (n : Nat) : Nat := (min (max x 0) (n : Int)).toNat

/-- JS `String.substring`: clamp both arguments to `[0, length]` and swap them when
`start > end`. -/
def jsSubstring (s : List Char) (a b : Int) : List Char :=
  let a' := clampNat a s.length
  let b' := clampNat b s.length
  (s.take (max a' b')).drop (min a' b')

/-- Fuel-driven engine for global fixed-string replacement: JS `String.replace` with a
`/g` pattern made of literal characters only and a replacement containing no `$`
substitution pattern.  The scan is left-to-right and non-overlapping; fuel is the
length of the subject, which bounds the number of scan steps. -/
def replaceAllF (p r : List Char) : Nat → List Char → List Char
  | _, [] => []
  | 0, s => s
  | fuel + 1, c :: cs =>
    if !p.isEmpty && isPre p (c :: cs) then r ++ replaceAllF p r fuel ((c :: cs).drop p.length)
    else c :: replaceAllF p r fuel cs

/-- Global fixed-string replacement (see `replaceAllF`). -/
def replaceAll (p r s : List Char) : List Char := replaceAllF p r s.length s

/-- Fuel-driven engine for the `/\*\*([^*]+)\*\*/g → "$1:"` rewrite used by
`simplifyStructure`.  At each position the regex matches iff two stars are followed
by a nonempty maximal star-free run and two more stars (the greedy `[^*]+` cannot
backtrack successfully: shrinking the run leaves a non-star where `\*` is required). -/
def boldReplaceF : Nat → List Char → List Char
  | _, [] => []
  | 0, s => s
  | fuel + 1, c :: cs =>
    if c == '*' then
      match cs with
      | c2 :: cs2 =>
        if c2 == '*' then
          let t := cs2.takeWhile (· != '*')
          if !t.isEmpty && isPre ['*', '*'] (cs2.drop t.length) then
            t ++ ':' :: boldReplaceF fuel (cs2.drop (t.length + 2))
          else c :: boldReplaceF fuel cs
        else c :: boldReplaceF fuel cs
      | [] => [c]
    else c :: boldReplaceF fuel cs

/-- The `/\*\*([^*]+)\*\*/g → "$1:"` rewrite (see `boldReplaceF`). -/
def boldReplace (s : List Char) : List Char := boldReplaceF s.length s

/-- Is this character one that forms an active substitution pattern after a `$`?
`String.replace` is called here with a string search value, for which ECMA-262
passes an empty captures list to `GetSubstitution`: only `$$`, `$&`, `$`-backquote
and `$`-quote are active, while every `$n` (the capture list being empty) falls
through as literal text. -/
def dollarSpecial (c : Char) : Bool :=
  c == '$' || c == '&' || c == Char.ofNat 96 || c == Char.ofNat 39

/-- No `$`-substitution pattern occurs in the string. -/
def noDollarPairB : List Char → Bool
  | [] => true
  | [_] => true
  | c1 :: c2 :: r => (!(c1 == '$') || !dollarSpecial c2) && noDollarPairB (c2 :: r)

/-- ECMA-262 `GetSubstitution` applied to a replacement string for a string search
value (empty captures list): `$$`, `$&`, `$`-backquote and `$`-quote are the active
substitution patterns; `$` followed by anything else — a digit included, the capture
list being empty — is literal text. -/
def getSubstitution (matched before after : List Char) : List Char → List Char
  | [] => []
  | c :: r =>
    if c == '$' then
      match r with
      | [] => ['$']
      | c2 :: r2 =>
        if c2 == '$' then '$' :: getSubstitution matched before after r2
        else if c2 == '&' then matched ++ getSubstitution matched before after r2
        else if c2 == Char.ofNat 96 then before ++ getSubstitution matched before after r2
        else if c2 == Char.ofNat 39 then after ++ getSubstitution matched before after r2
        else '$' :: c2 :: getSubstitution matched before after r2
    else c :: getSubstitution matched before after r

/-- JS `String.replace` with a literal string pattern: replace the first occurrence,
applying `GetSubstitution` to the replacement. -/
def jsReplaceFirst (s pat repl : List Char) : List Char :=
  match indexOfSub pat s with
  | none => s
  | some i =>
    s.take i ++ getSubstitution pat (s.take i) (s.drop (i + pat.length)) repl
      ++ s.drop (i + pat.length)

/-- JS `String.split('\n')`. -/
def splitNl : List Char → List (List Char)
  | [] => [[]]
  | c :: t =>
    if c == '\n' then [] :: splitNl t
    else match splitNl t with
      | [] => [[c]]
      | l :: ls => (c :: l) :: ls

/-- JS `Array.join('\n')`. -/
def joinNl : List (List Char) → List Char
  | [] => []
  | [l] => l
  | l :: ls => l ++ '\n' :: joinNl ls

/-- JS `a || b` where `a` is a map lookup producing string-or-undefined: both
`undefined` and the empty string are falsy. -/
def jsOrS (a : Option (List Char)) (b : List Char) : List Char :=
  match a with
  | some s => if s.isEmpty then b else s
  | none => b

/-- One digit character (decimal). -/
def digitChar10 (k : Nat) : Char := Char.ofNat (48 + k % 10)

/-- Fuel-driven decimal printing. -/
def toDecF : Nat → Nat → List Char
  | 0, _ => []
  | fuel + 1, n => if n < 10 then [digitChar10 n] else toDecF fuel (n / 10) ++ [digitChar10 (n % 10)]

/-- Decimal printing of a natural number (JS number-to-string interpolation for the
integer values at play). -/
def toDec (n : Nat) : List Char := toDecF (n + 1) n
def corePromptS : List Char := ("# ZeroCode Framework - Core Rules\n\n## TRIGGER PATTERNS - When you see these, apply rules:\n\n### Code Architecture Decisions\nTRIGGERS: \"how should I structure\", \"best practice\", \"design pattern\"\n\u2192 APPLY: Hickey Simple Rule - One concept per component\n\n### Problem Solving  \nTRIGGERS: \"how to implement\", \"need to build\", \"want to create\"\n\u2192 APPLY: Linus Real Problem Rule - Is this actually needed?\n\n### Code Review\nTRIGGERS: \"is this good\", \"review my code\", \"feedback on\"\n\u2192 APPLY: Zeus Structure - Analyze systematically\n\n## CONCRETE RULES WITH EXAMPLES\n\n### HICKEY RULE: Detect Complexity\nBAD PATTERN (avoid this):\n\x60\x60\x60javascript\nclass UserServiceManagerFactory \x7b  // Multiple concepts\n  validateAndSaveAndEmail() \x7b\x7d     // Mixed responsibilities\n\x7d\n\x60\x60\x60\n\nGOOD PATTERN (do this):\n\x60\x60\x60javascript\nvalidateUser(user)    // One concept\nsaveUser(user)        // One concept\nemailUser(user)       // One concept\n\x60\x60\x60\n\n### LINUS RULE: Real vs Imaginary\nIMAGINARY PROBLEMS (don\x27t solve):\n- \"What if we have 1 million users\" (you have 10)\n- \"This needs to be infinitely scalable\" (it doesn\x27t)\n- \"We might need this flexibility\" (you won\x27t)\n\nREAL PROBLEMS (solve these):\n- \"This takes 5 seconds to load\" (measurable)\n- \"Users can\x27t reset passwords\" (actual issue)\n- \"Database queries fail randomly\" (happening now)\n\n### ZEUS STRUCTURE: Every response must have:\n🎯 OBJECTIVE: What we\x27re solving (one sentence)\n🔧 IMPLEMENTATION: Simple, working code\n\u26A0\uFE0F TRADEOFFS: What we\x27re sacrificing for simplicity\n📈 VALIDATION: How to verify it works\n\nCRITICAL: Prefer boring solutions that work over clever solutions that might work.").data

def extCursorS : List Char := ("\n## Cursor-Specific Code Generation Rules\n\nWhen generating code in Cursor:\n1. Always provide complete, runnable files\n2. Include all imports at the top\n3. Use TypeScript when possible for better IntelliSense\n4. Add clear comments for complex logic\n\nExample of Cursor-optimized response:\n\x60\x60\x60typescript\n// Complete file: userService.ts\nimport \x7b db \x7d from \x27./database\x27;\nimport \x7b User \x7d from \x27./types\x27;\n\n// Simple function - one responsibility\nexport async function getUser(id: string): Promise<User | null> \x7b\n  const result = await db.query(\x27SELECT * FROM users WHERE id = $1\x27, [id]);\n  return result.rows[0] || null;\n\x7d\n\x60\x60\x60\n").data

def extClaudeS : List Char := ("\n## Claude-Specific Interaction Rules\n\nWhen working with Claude:\n1. Break complex tasks into clear steps\n2. Ask for clarification before making assumptions\n3. Provide reasoning before code\n4. Use markdown for better readability\n\nClaude Response Pattern:\n1. Understand the problem\n2. Propose simple solution\n3. Implement with clear code\n4. Explain tradeoffs\n").data

def extCopilotS : List Char := ("\n## GitHub Copilot Optimization Rules\n\nFor better Copilot suggestions:\n1. Write descriptive function names\n2. Add clear comments before functions\n3. Use consistent naming patterns\n4. Start with test cases when possible\n\nExample:\n\x60\x60\x60javascript\n// Get user by email address from database\n// Returns null if user not found\nfunction getUserByEmail(email) \x7b\n  // Copilot will complete this better with clear intent\n\x7d\n\x60\x60\x60\n").data

def exReactS : List Char := ("\n## React-Specific Examples\n\nHICKEY PRINCIPLE in React:\nBAD: Component doing everything\n\x60\x60\x60jsx\nfunction UserDashboard() \x7b\n  // Fetching, validation, display, state - all mixed\n  const [user, setUser] = useState();\n  useEffect(() => \x7b /* fetch */ \x7d, []);\n  if (!user.email.includes(\x27@\x27)) \x7b /* validation */ \x7d\n  return <div>...</div>;\n\x7d\n\x60\x60\x60\n\nGOOD: Separated concerns\n\x60\x60\x60jsx\n// Custom hook for data\nfunction useUser(id) \x7b /* fetching logic */ \x7d\n\n// Pure component for display\nfunction UserDisplay(\x7b user \x7d) \x7b /* only display */ \x7d\n\n// Composition\nfunction UserDashboard() \x7b\n  const user = useUser(id);\n  return <UserDisplay user=\x7buser\x7d />;\n\x7d\n\x60\x60\x60\n").data

def exNodeS : List Char := ("\n## Node.js-Specific Examples\n\nLINUS PRINCIPLE in Node.js:\nBAD: Overengineered API\n\x60\x60\x60javascript\nclass AbstractRepositoryFactory \x7b\n  createRepository(type) \x7b\n    return new RepositoryBuilder()\n      .withType(type)\n      .withCache()\n      .withValidation()\n      .build();\n  \x7d\n\x7d\n\x60\x60\x60\n\nGOOD: Simple and direct\n\x60\x60\x60javascript\nconst users = require(\x27./users.json\x27);\n\nfunction getUser(id) \x7b\n  return users.find(u => u.id === id);\n\x7d\n\x60\x60\x60\n").data

def cursorPreambleS : List Char := ("\n## Cursor IDE Optimization\n\nYou are specifically optimized for code generation in Cursor IDE. Focus on:\n- Providing complete, runnable code examples\n- Using TypeScript when possible\n- Including proper imports and exports\n- Suggesting file structures and organization\n- Optimizing for developer productivity\n\n").data

def claudePreambleS : List Char := ("\n## Claude Optimization\n\nYou are optimized for Claude\x27s structured reasoning capabilities. Emphasize:\n- Detailed step-by-step explanations\n- Multiple perspectives on complex problems\n- Comprehensive analysis with pros/cons\n- Clear reasoning chains\n- Thorough documentation of thought processes\n\n").data

def ollamaPreambleS : List Char := ("\n## Ollama Local Model Optimization\n\nYou are optimized for local model efficiency. Focus on:\n- Concise, direct responses\n- Essential information only\n- Minimal context switching\n- Clear, simple language\n- Efficient token usage\n\n").data

def universalPreambleS : List Char := ("\n## Universal Compatibility\n\nThis prompt is optimized for compatibility across multiple AI platforms:\n- Works with Cursor, Claude, Ollama, and other AI tools\n- Balanced approach between detail and conciseness\n- Standard markdown formatting\n- Clear structure for easy parsing\n\n").data

def exampleSectionS : List Char := ("\n\n## Detailed Examples for Claude\n\n### Example 1: Code Review Request\n**Request:** \"Review this React component\"\n**Response Structure:**\n\u011F\u0178\u00AF **OBJECTIVE:** Analyze component for Hickey/Linus/Zeus principles\n\u011F\u0178\u201D\u00A7 **IMPLEMENTATION:** Specific improvements with code examples\n\u00E2\u0161\u00A0\u00EF\u00B8 **CONSIDERATIONS:** Potential issues and trade-offs\n\u011F\u0178\u201C\u02C6 **VALIDATION:** Testing strategies and success metrics\n\n### Example 2: Architecture Decision\n**Request:** \"Should I use Redux or Context API?\"\n**Response Structure:**\n\u011F\u0178\u00AF **OBJECTIVE:** Choose state management based on real needs (Linus)\n\u011F\u0178\u201D\u00A7 **IMPLEMENTATION:** Simple solution first (Hickey), structured comparison (Zeus)\n\u00E2\u0161\u00A0\u00EF\u00B8 **CONSIDERATIONS:** Complexity trade-offs and team familiarity\n\u011F\u0178\u201C\u02C6 **VALIDATION:** Measurable criteria for success\n").data

def implReplS : List Char := ("## Code Implementation Guidelines\n\n**For Cursor IDE users:**\n- Always provide complete, runnable code\n- Include proper TypeScript types\n- Suggest file organization\n- Consider IDE integration\n\n## Implementation Guidelines").data

def implPatS : List Char := ("## Implementation Guidelines").data

def objPat1S : List Char := ("\u011F\u0178\u00AF OBJECTIVE:").data

def objRepl1S : List Char := ("\u011F\u0178\u00AF OBJECTIVE:\n*Claude users: Provide comprehensive analysis with multiple perspectives*\n").data

def objPat2S : List Char := ("### \u011F\u0178\u00AF OBJECTIVE").data

def objRepl2S : List Char := ("### \u011F\u0178\u00AF OBJECTIVE\n*Claude users: Provide comprehensive analysis with multiple perspectives*").data

def glyphObjPatS : List Char := ("\u011F\u0178\u00AF").data

def glyphObjReplS : List Char := ("[OBJECTIVE]").data

def glyphImplPatS : List Char := ("\u011F\u0178\u201D\u00A7").data

def glyphImplReplS : List Char := ("[IMPLEMENTATION]").data

def glyphConsPatS : List Char := ("\u00E2\u0161\u00A0\u00EF\u00B8").data

def glyphConsReplS : List Char := ("[CONSIDERATIONS]").data

def glyphValPatS : List Char := ("\u011F\u0178\u201C\u02C6").data

def glyphValReplS : List Char := ("[VALIDATION]").data

def truncMsgS : List Char := ("\n\n[Truncated for platform compatibility]").data

def usagePatS : List Char := ("\n\n## Usage Instructions").data

def corePrinXPatS : List Char := ("## Core Principles").data

def truncLineMarkS : List Char := ("[Truncated for platform compatibility]").data

def cursorTruncWarnS : List Char := ("Prompt truncated to 15000 characters for Cursor compatibility").data

def claudeWarnPreS : List Char := ("Prompt is ").data

def claudeWarnPostS : List Char := (" characters (within Claude\x27s 20000 limit)").data

def ollamaCharWarnS : List Char := ("Prompt truncated to 8000 characters for Ollama compatibility").data

def ollamaLineWarnS : List Char := ("Prompt truncated to 300 lines for Ollama compatibility").data

def univTruncWarnS : List Char := ("Prompt truncated to 12000 characters for universal compatibility").data

def aoCursor1S : List Char := ("Added Cursor-specific code generation focus").data

def aoCursor2S : List Char := ("Enhanced code-related sections").data

def aoClaude1S : List Char := ("Added Claude-specific structured thinking").data

def aoClaude2S : List Char := ("Enhanced structured sections").data

def aoClaude3S : List Char := ("Added detailed examples").data

def aoOllama1S : List Char := ("Added Ollama-specific local model optimization").data

def aoOllama2S : List Char := ("Removed emojis for local model compatibility").data

def aoOllama3S : List Char := ("Simplified structure for local models").data

def aoUniv1S : List Char := ("Added universal compatibility optimization").data

def instructionsS : List Char := ("Apply ZeroCode principles to all code generation").data

def exList1S : List Char := ("Use simple functions over complex classes").data

def exList2S : List Char := ("Solve real problems, not imaginary ones").data

def exList3S : List Char := ("Provide working code with clear validation").data

def truncatedWordS : List Char := ("truncated").data
/-! ## Data model (src/types.ts, src/platform-optimizer.ts) -/

/-- `PlatformLimits` (platform-optimizer.ts lines 3-9). -/
structure PlatformLimits where
  maxCharacters : Option Nat
  maxLines : Option Nat
  preferredFormat : List Char
  supportsEmojis : Bool
  requiresSpecialFormatting : List (List Char)
deriving Repr, DecidableEq

/-- `OptimizationResult` (platform-optimizer.ts lines 11-15). -/
structure OptimizationResult where
  optimizedPrompt : List Char
  warnings : List (List Char)
  appliedOptimizations : List (List Char)
deriving Repr, DecidableEq

/-- `GeneratedPrompt` (types.ts). -/
structure GeneratedPrompt where
  systemPrompt : List Char
  instructions : List Char
  examples : List (List Char)
  platform : List Char
deriving Repr, DecidableEq

/-- `PromptGeneratorConfig` (types.ts).  The destination identifier reaches this
record as a free-form string through the CLI layer (cli.ts `options.platform`), so
`platform` is modelled as an arbitrary character list. -/
structure PromptGeneratorConfig where
  platform : List Char
  complexity : List Char
  language : List Char
  customRules : List (List Char)

def cursorKey : List Char := ("cursor").data
def claudeKey : List Char := ("claude").data
def ollamaKey : List Char := ("ollama").data
def universalKey : List Char := ("universal").data
def copilotKey : List Char := ("copilot").data
def reactKey : List Char := ("react").data
def nodeKey : List Char := ("node").data

/-- The platform-limit registry built by `initializePlatformLimits`
(platform-optimizer.ts lines 32-65). -/
def cursorLimits : PlatformLimits :=
  ⟨some 15000, none, ("markdown").data, true, [("code-blocks").data, ("bullet-points").data]⟩

def claudeLimits : PlatformLimits :=
  ⟨some 20000, none, ("structured").data, true,
    [("headers").data, ("sections").data, ("examples").data]⟩

def ollamaLimits : PlatformLimits :=
  ⟨some 8000, some 300, ("plain").data, false, [("simple-structure").data]⟩

def universalLimits : PlatformLimits :=
  ⟨some 12000, none, ("markdown").data, true, [("clear-sections").data]⟩

def platformLimits : List (List Char × PlatformLimits) :=
  [(cursorKey, cursorLimits), (claudeKey, claudeLimits),
   (ollamaKey, ollamaLimits), (universalKey, universalLimits)]

/-- `getPlatformLimit` (platform-optimizer.ts lines 24-27): `limits?.maxCharacters || 10000`
(both `undefined` and `0` are falsy). -/
def getPlatformLimit (platform : List Char) : Nat :=
  match platformLimits.lookup platform with
  | some l =>
    match l.maxCharacters with
    | some n => if n == 0 then 10000 else n
    | none => 10000
  | none => 10000

/-! ## Fragment library (generator.ts lines 28-205) -/

/-- `extendedPrompts` map populated by `loadExtendedPrompts` (generator.ts lines 82-143). -/
def extendedPrompts : List (List Char × List Char) :=
  [(cursorKey, extCursorS), (claudeKey, extClaudeS), (copilotKey, extCopilotS)]

/-- `examples` map populated by `loadExamples` (generator.ts lines 145-205). -/
def examplesMap : List (List Char × List Char) :=
  [(reactKey, exReactS), (nodeKey, exNodeS)]

/-- `estimateTokens` (generator.ts lines 260-263): `Math.ceil(text.length / 4)`. -/
def estimateTokens (text : List Char) : Nat := (text.length + 3) / 4

/-- Extended-fragment resolution (generator.ts lines 233-234):
`extendedPrompts.get(platform) || extendedPrompts.get('cursor') || ''`. -/
def resolveExtended (platform : List Char) : List Char :=
  jsOrS (extendedPrompts.lookup platform) (jsOrS (extendedPrompts.lookup cursorKey) [])

/-- Example-fragment resolution (generator.ts line 244): `examples.get(category) || ''`.
The category is the output of `detectProjectType`, an external collaborator signal
(it inspects the user's `package.json`), so it is an explicit parameter here. -/
def resolveExample (category : List Char) : List Char :=
  jsOrS (examplesMap.lookup category) []

/-- Extended-fragment inclusion check (generator.ts line 236):
`extendedPrompt && estimatedTokens + estimateTokens(extendedPrompt) < platformLimit * 0.7`,
with the `* 0.7` comparison modelled exactly over rationals. -/
def condE (platform : List Char) : Bool :=
  !(resolveExtended platform).isEmpty &&
    decide (10 * (estimateTokens corePromptS + estimateTokens (resolveExtended platform))
      < 7 * getPlatformLimit platform)

/-- Cumulative estimated cost after the extended step (generator.ts lines 230, 239). -/
def costAfterE (platform : List Char) : Nat :=
  if condE platform then estimateTokens corePromptS + estimateTokens (resolveExtended platform)
  else estimateTokens corePromptS

/-- Example-fragment inclusion check (generator.ts line 246):
`examples && estimatedTokens + estimateTokens(examples) < platformLimit * 0.9`,
where `estimatedTokens` is the cumulative cost after the extended step. -/
def condX (platform category : List Char) : Bool :=
  !(resolveExample category).isEmpty &&
    decide (10 * (costAfterE platform + estimateTokens (resolveExample category))
      < 9 * getPlatformLimit platform)

def nlnl : List Char := ['\n', '\n']

/-- `assembleAdaptivePrompt` (generator.ts lines 226-258): start from the core
fragment, then extended and examples fragments are appended (with a `"\n\n"`
separator, pushing their labels) under the `condE` / `condX` checks; warnings are
always empty at this stage. -/
def assembleAdaptivePrompt (config : PromptGeneratorConfig) (category : List Char) :
    OptimizationResult :=
  let prompt1 := if condE config.platform then corePromptS ++ nlnl ++ resolveExtended config.platform
    else corePromptS
  let applied1 : List (List Char) := if condE config.platform then [("core").data, ("extended").data]
    else [("core").data]
  let prompt2 := if condX config.platform category then prompt1 ++ nlnl ++ resolveExample category
    else prompt1
  let applied2 := if condX config.platform category then applied1 ++ [("examples").data]
    else applied1
  ⟨prompt2, [], applied2⟩

/-- `generate` (generator.ts lines 207-216). -/
def generate (config : PromptGeneratorConfig) (category : List Char) : GeneratedPrompt :=
  ⟨(assembleAdaptivePrompt config category).optimizedPrompt,
   instructionsS, [exList1S, exList2S, exList3S], config.platform⟩

/-! ## Transformer and truncator (platform-optimizer.ts) -/

/-- Matcher for `/^(# .*?\n\n.*?\n\n)/s` (platform-optimizer.ts line 300).  `.` crosses
newlines (`s` flag) and both quantifiers are lazy, so the match is: `"# "`, then up
to the first `"\n\n"` at offset ≥ 2, then up to the first later non-overlapping
`"\n\n"`; if no such pair exists no backtracking choice can succeed.  Returns the
length of the matched prefix. -/
def headerMatchS (s : List Char) : Option Nat :=
  match s with
  | c1 :: c2 :: rest =>
    if c1 == '#' && c2 == ' ' then
      match indexOfSub nlnl rest with
      | some i =>
        match indexOfSub nlnl (rest.drop (i + 2)) with
        | some j => some (2 + i + 2 + j + 2)
        | none => none
      | none => none
    else none
  | _ => none

/-- `insertAfterHeader` (platform-optimizer.ts lines 299-305): when the header pattern
matches, `prompt.replace(match, match + content)` — a literal-string first-occurrence
replace whose replacement undergoes `GetSubstitution`; otherwise prepend. -/
def insertAfterHeader (prompt content : List Char) : List Char :=
  match headerMatchS prompt with
  | some h => jsReplaceFirst prompt (prompt.take h) (prompt.take h ++ content)
  | none => content ++ prompt

/-- `enhanceCodeSections` (platform-optimizer.ts lines 310-315). -/
def enhanceCodeSections (prompt : List Char) : List Char :=
  replaceAll implPatS implReplS prompt

/-- `enhanceStructuredSections` (platform-optimizer.ts lines 320-336). -/
def enhanceStructuredSections (prompt : List Char) : List Char :=
  let enhanced := replaceAll objPat1S objRepl1S prompt
  if enhanced == prompt then replaceAll objPat2S objRepl2S prompt else enhanced

/-- `addDetailedExamples` (platform-optimizer.ts lines 341-364). -/
def addDetailedExamples (prompt : List Char) : List Char := prompt ++ exampleSectionS

/-- The decorative-symbol code-point ranges stripped by `removeEmojis`
(platform-optimizer.ts line 375). -/
def emojiRange (c : Char) : Bool :=
  (0x1F600 ≤ c.toNat && c.toNat ≤ 0x1F64F) || (0x1F300 ≤ c.toNat && c.toNat ≤ 0x1F5FF) ||
  (0x1F680 ≤ c.toNat && c.toNat ≤ 0x1F6FF) || (0x1F1E0 ≤ c.toNat && c.toNat ≤ 0x1F1FF) ||
  (0x2600 ≤ c.toNat && c.toNat ≤ 0x26FF) || (0x2700 ≤ c.toNat && c.toNat ≤ 0x27BF)

/-- `removeEmojis` (platform-optimizer.ts lines 369-376): four fixed glyph-sequence
replacements, then a per-code-point strip of the `emojiRange` classes. -/
def removeEmojis (prompt : List Char) : List Char :=
  (replaceAll glyphValPatS glyphValReplS
    (replaceAll glyphConsPatS glyphConsReplS
      (replaceAll glyphImplPatS glyphImplReplS
        (replaceAll glyphObjPatS glyphObjReplS prompt)))).filter (fun c => !emojiRange c)

def h3Pat : List Char := ("### ").data
def h2Rep : List Char := ("## ").data
def h4Pat : List Char := ("#### ").data
def cbPat : List Char := ("- [ ]").data
def dashRep : List Char := ("-").data

/-- `simplifyStructure` (platform-optimizer.ts lines 381-387): four sequential global
replaces — heading demotions, the bold rewrite, and checkbox collapsing. -/
def simplifyStructure (prompt : List Char) : List Char :=
  replaceAll cbPat dashRep
    (boldReplace (replaceAll h4Pat h3Pat (replaceAll h3Pat h2Rep prompt)))

/-- Matcher for `/^(# .*?\n\n.*?\n\n## Core Principles[\s\S]*?\n\n)/`
(platform-optimizer.ts line 420).  Without the `s` flag the lazy dots cannot cross
newlines, so each run is forced to be the maximal newline-free run and no
backtracking choice exists; `[\s\S]*?` is lazy, taking the first later `"\n\n"`. -/
def truncHeaderMatch (s : List Char) : Option Nat :=
  match s with
  | '#' :: ' ' :: rest =>
    let t1 := rest.takeWhile (· != '\n')
    match rest.drop t1.length with
    | '\n' :: '\n' :: r2 =>
      let t2 := r2.takeWhile (· != '\n')
      match r2.drop t2.length with
      | '\n' :: '\n' :: r4 =>
        if isPre corePrinXPatS r4 then
          match indexOfSub nlnl (r4.drop corePrinXPatS.length) with
          | some k =>
            some (2 + t1.length + 2 + t2.length + 2 + corePrinXPatS.length + k + 2)
          | none => none
        else none
      | _ => none
    | _ => none
  | _ => none

/-- `truncatePrompt` (platform-optimizer.ts lines 392-444).  The footer is the suffix
from the first occurrence of `"\n\n## Usage Instructions"`; the `* 0.3` and `* 0.8`
float comparisons are modelled as exact rational comparisons. -/
def truncatePrompt (prompt : List Char) (maxChars : Nat) : List Char :=
  if prompt.length ≤ maxChars then prompt
  else
    let footerLen : Nat :=
      match indexOfSub usagePatS prompt with
      | some i => prompt.length - i
      | none => 0
    let availableChars : Int := (maxChars : Int) - truncMsgS.length - footerLen
    if 10 * availableChars < 3 * (prompt.length : Int) then
      let simpleAvailable : Int := (maxChars : Int) - truncMsgS.length
      let truncated := jsSubstring prompt 0 simpleAvailable
      let lastParagraph : Int := lastIndexOfSub nlnl truncated
      if 10 * lastParagraph > 8 * simpleAvailable then
        jsSubstring truncated 0 lastParagraph ++ truncMsgS
      else truncated ++ truncMsgS
    else
      let headerLen : Nat := match truncHeaderMatch prompt with | some h => h | none => 0
      let mca : Int := availableChars - headerLen
      if 0 < mca then
        let header := jsSubstring prompt 0 headerLen
        let mainContent := jsSubstring prompt ((headerLen : Int)) ((headerLen : Int) + mca)
        let footer : List Char :=
          match indexOfSub usagePatS prompt with
          | some i => prompt.drop i
          | none => []
        let lastParagraph : Int := lastIndexOfSub nlnl mainContent
        let finalMain :=
          if 10 * lastParagraph > 8 * mca then jsSubstring mainContent 0 lastParagraph
          else mainContent
        header ++ finalMain ++ truncMsgS ++ footer
      else jsSubstring prompt 0 ((maxChars : Int) - truncMsgS.length) ++ truncMsgS

/-- `truncateByLines` (platform-optimizer.ts lines 449-459); the caller passes
`maxLines = 300`. -/
def truncateByLines (prompt : List Char) (maxLines : Nat) : List Char :=
  let lines := splitNl prompt
  if lines.length ≤ maxLines then prompt
  else joinNl (lines.take (maxLines - 2)) ++ '\n' :: joinNl [[], truncLineMarkS]

/-- `optimizeForCursor` (platform-optimizer.ts lines 70-108). -/
def optimizeForCursor (prompt : List Char) : OptimizationResult :=
  let p1 := enhanceCodeSections (insertAfterHeader prompt cursorPreambleS)
  if cursorLimits.maxCharacters.getD 0 < p1.length then
    ⟨truncatePrompt p1 (cursorLimits.maxCharacters.getD 0), [cursorTruncWarnS],
     [aoCursor1S, aoCursor2S]⟩
  else ⟨p1, [], [aoCursor1S, aoCursor2S]⟩

/-- `optimizeForClaude` (platform-optimizer.ts lines 113-154): over the ceiling it only
warns (interpolating the document length); it never truncates. -/
def optimizeForClaude (prompt : List Char) : OptimizationResult :=
  let p1 := addDetailedExamples (enhanceStructuredSections (insertAfterHeader prompt claudePreambleS))
  if claudeLimits.maxCharacters.getD 0 < p1.length then
    ⟨p1, [claudeWarnPreS ++ toDec p1.length ++ claudeWarnPostS],
     [aoClaude1S, aoClaude2S, aoClaude3S]⟩
  else ⟨p1, [], [aoClaude1S, aoClaude2S, aoClaude3S]⟩

/-- `optimizeForOllama` (platform-optimizer.ts lines 159-210): preamble insertion,
emoji removal (the profile declares `supportsEmojis = false`), structural
simplification, then character truncation and line truncation, each with its
warning. -/
def optimizeForOllama (prompt : List Char) : OptimizationResult :=
  let p1 := insertAfterHeader prompt ollamaPreambleS
  let p2 := if ollamaLimits.supportsEmojis then p1 else removeEmojis p1
  let p3 := simplifyStructure p2
  let charTrunc : Bool := decide (ollamaLimits.maxCharacters.getD 0 < p3.length)
  let p4 := if charTrunc then truncatePrompt p3 (ollamaLimits.maxCharacters.getD 0) else p3
  let w1 : List (List Char) := if charTrunc then [ollamaCharWarnS] else []
  let lineTrunc : Bool :=
    match ollamaLimits.maxLines with
    | some m => decide (0 < m) && decide (m < (splitNl p4).length)
    | none => false
  let p5 := if lineTrunc then truncateByLines p4 (ollamaLimits.maxLines.getD 0) else p4
  let w2 : List (List Char) := if lineTrunc then [ollamaLineWarnS] else []
  ⟨p5, w1 ++ w2,
   [aoOllama1S] ++ (if ollamaLimits.supportsEmojis then [] else [aoOllama2S]) ++ [aoOllama3S]⟩

/-- `optimizeForUniversal` (platform-optimizer.ts lines 261-294). -/
def optimizeForUniversal (prompt : List Char) : OptimizationResult :=
  let p1 := insertAfterHeader prompt universalPreambleS
  if universalLimits.maxCharacters.getD 0 < p1.length then
    ⟨truncatePrompt p1 (universalLimits.maxCharacters.getD 0), [univTruncWarnS], [aoUniv1S]⟩
  else ⟨p1, [], [aoUniv1S]⟩

/-- `optimize` (platform-optimizer.ts lines 243-256): dispatch on the configured
platform; `universal` and unknown identifiers both reach `optimizeForUniversal`. -/
def optimize (platform prompt : List Char) : OptimizationResult :=
  if platform == cursorKey then optimizeForCursor prompt
  else if platform == claudeKey then optimizeForClaude prompt
  else if platform == ollamaKey then optimizeForOllama prompt
  else optimizeForUniversal prompt

/-- The document each optimizer holds immediately before its truncation step(s) —
the "pre-truncation" document of the warning-correlation property. -/
def preTruncDoc (platform prompt : List Char) : List Char :=
  if platform == cursorKey then enhanceCodeSections (insertAfterHeader prompt cursorPreambleS)
  else if platform == claudeKey then
    addDetailedExamples (enhanceStructuredSections (insertAfterHeader prompt claudePreambleS))
  else if platform == ollamaKey then
    simplifyStructure (removeEmojis (insertAfterHeader prompt ollamaPreambleS))
  else insertAfterHeader prompt universalPreambleS

/-- Whether `optimize` actually invoked a truncation procedure (character or line). -/
def truncationInvokedB (platform prompt : List Char) : Bool :=
  if platform == cursorKey then decide (15000 < (preTruncDoc platform prompt).length)
  else if platform == claudeKey then false
  else if platform == ollamaKey then
    (decide (8000 < (preTruncDoc platform prompt).length)) ||
      (decide (300 < (splitNl (if 8000 < (preTruncDoc platform prompt).length then
        truncatePrompt (preTruncDoc platform prompt) 8000 else preTruncDoc platform prompt)).length))
  else decide (12000 < (preTruncDoc platform prompt).length)

/-- Whether some warning string mentions "truncated". -/
def mentionsTruncated (ws : List (List Char)) : Bool :=
  ws.any (fun w => containsSubB truncatedWordS w)
/-- Concrete 615-character, 291-line document for the warning-correlation
counterexample. -/
def c7xS : List Char := ("a\na\na\na\na\na\na\na\na\na\na\na\na\na\na\na\na\na\na\na\na\na\na\na\na\na\na\na\na\na\na\na\na\na\na\na\na\na\na\na\na\na\na\na\na\na\na\na\na\na\na\na\na\na\na\na\na\na\na\na\na\na\na\na\na\na\na\na\na\na\na\na\na\na\na\na\na\na\na\na\na\na\na\na\na\na\na\na\na\na\na\na\na\na\na\na\na\na\na\na\na\na\na\na\na\na\na\na\na\na\na\na\na\na\na\na\na\na\na\na\na\na\na\na\na\na\na\na\na\na\na\na\na\na\na\na\na\na\na\na\na\na\na\na\na\na\na\na\na\na\na\na\na\na\na\na\na\na\na\na\na\na\na\na\na\na\na\na\na\na\na\na\na\na\na\na\na\na\na\na\na\na\na\na\na\na\na\na\na\na\na\na\na\na\na\na\na\na\na\na\na\na\na\na\na\na\na\na\na\na\na\na\na\na\na\na\na\na\na\na\na\na\na\na\na\na\na\na\na\na\na\na\na\na\na\na\na\na\na\na\na\na\na\na\na\na\na\na\na\na\na\na\na\na\na\na\na\na\na\na\na\na\na\na\na\na\na\na\na\na\na\na\na\na\na\na\na\na\na\na\na\na\na\na\na\na\na\na\naaaaaaaaaaaa\naaaaaaaaaaaa\naaaaaaaaaaaaa").data
/-! ## A grammar of structured lines (for the structural-simplification claim) -/

/-- One line of a structured markdown document: a level-3 heading, a level-4 heading,
a bold-wrapped phrase, a checkbox item, or a plain line, each carrying its text. -/
inductive SL where
  | h3 (t : List Char)
  | h4 (t : List Char)
  | bold (t : List Char)
  | checkbox (t : List Char)
  | plain (t : List Char)

/-- The concrete markdown text of one line. -/
def renderSL : SL → List Char
  | SL.h3 t => h3Pat ++ t
  | SL.h4 t => h4Pat ++ t
  | SL.bold t => ("**").data ++ t ++ ("**").data
  | SL.checkbox t => cbPat ++ t
  | SL.plain t => t

/-- The line after the two heading-demotion passes (headings demoted one level,
bold and checkbox lines untouched). -/
def demotedSL : SL → List Char
  | SL.h3 t => h2Rep ++ t
  | SL.h4 t => h3Pat ++ t
  | SL.bold t => ("**").data ++ t ++ ("**").data
  | SL.checkbox t => cbPat ++ t
  | SL.plain t => t

/-- The line after the bold rewrite has additionally been applied. -/
def boldedSL : SL → List Char
  | SL.h3 t => h2Rep ++ t
  | SL.h4 t => h3Pat ++ t
  | SL.bold t => t ++ (":").data
  | SL.checkbox t => cbPat ++ t
  | SL.plain t => t

/-- The fully simplified line, following the specification's words: a level-3
heading becomes level-2, a level-4 heading becomes level-3, a bold-wrapped phrase
becomes the phrase followed by a trailing colon, and a checkbox marker collapses to
a plain bullet. -/
def simplifiedSL : SL → List Char
  | SL.h3 t => h2Rep ++ t
  | SL.h4 t => h3Pat ++ t
  | SL.bold t => t ++ (":").data
  | SL.checkbox t => dashRep ++ t
  | SL.plain t => t

/-- Line text free of the structural metacharacters and of newlines. -/
def cleanTB (t : List Char) : Bool :=
  t.all (fun c => !(c == '#') && !(c == '*') && !(c == '[') && !(c == '\n'))

/-- A well-formed line: clean text, nonempty in the bold case (the bold regex
requires at least one character between the markers). -/
def cleanSLB : SL → Bool
  | SL.h3 t => cleanTB t
  | SL.h4 t => cleanTB t
  | SL.bold t => !t.isEmpty && cleanTB t
  | SL.checkbox t => cleanTB t
  | SL.plain t => cleanTB t

/-- A structured document rendered to markdown: its lines joined by newlines. -/
def renderDoc (d : List SL) : List Char := joinNl (d.map renderSL)
/-! ## Basic lemmas about the string primitives -/

theorem isPre_iff (p : List Char) : ∀ s, isPre p s = true ↔ ∃ t, s = p ++ t := by
  induction p with
  | nil => intro s; simp [isPre]
  | cons a as ih =>
    intro s
    cases s with
    | nil => simp [isPre]
    | cons b bs =>
      simp only [isPre, Bool.and_eq_true, beq_iff_eq, ih bs, List.cons_append,
        List.cons.injEq]
      constructor
      · rintro ⟨rfl, t, rfl⟩; exact ⟨t, rfl, rfl⟩
      · rintro ⟨t, rfl, rfl⟩; exact ⟨rfl, t, rfl⟩

theorem isPre_append_self (p t : List Char) : isPre p (p ++ t) = true :=
  (isPre_iff p (p ++ t)).mpr ⟨t, rfl⟩

theorem isPre_take (s : List Char) (h : Nat) : isPre (s.take h) s = true :=
  (isPre_iff (s.take h) s).mpr ⟨s.drop h, (List.take_append_drop h s).symm⟩

theorem isPre_length_le {p s : List Char} (hp : isPre p s = true) : p.length ≤ s.length := by
  rcases (isPre_iff p s).mp hp with ⟨t, rfl⟩
  simp

theorem isPre_mem {p s : List Char} (hp : isPre p s = true) {q : Char} (hq : q ∈ p) : q ∈ s := by
  rcases (isPre_iff p s).mp hp with ⟨t, rfl⟩
  exact List.mem_append_left t hq

theorem indexOfSub_some {p s : List Char} {i : Nat} (h : indexOfSub p s = some i) :
    isPre p (s.drop i) = true ∧ i + p.length ≤ s.length := by
  induction s generalizing i with
  | nil =>
    by_cases hp : p.isEmpty <;> simp [indexOfSub, hp] at h
    rcases h with rfl
    simp_all [List.isEmpty_iff, isPre]
  | cons c tl ih =>
    by_cases hpre : isPre p (c :: tl) = true
    · simp [indexOfSub, hpre] at h
      rcases h with rfl
      exact ⟨hpre, by simpa using isPre_length_le hpre⟩
    · simp [indexOfSub, hpre] at h
      rcases h with ⟨j, hj, rfl⟩
      rcases ih hj with ⟨h1, h2⟩
      exact ⟨h1, by simpa [Nat.succ_add] using Nat.add_le_add_right h2 1⟩

theorem indexOfSub_le_length {p s : List Char} {i : Nat} (h : indexOfSub p s = some i) :
    i ≤ s.length :=
  Nat.le_trans (Nat.le_add_right _ _) (indexOfSub_some h).2

theorem indexOfSub_of_isPre {p s : List Char} (h : isPre p s = true) :
    indexOfSub p s = some 0 := by
  cases s with
  | nil =>
    cases p with
    | nil => simp [indexOfSub]
    | cons a as => simp [isPre] at h
  | cons c tl => simp [indexOfSub, h]

/-! jsSubstring length bounds -/

theorem clampNat_le (x : Int) (n : Nat) : clampNat x n ≤ n := by
  unfold clampNat
  omega

theorem clampNat_le_of_nonneg {x : Int} (n : Nat) (hx : 0 ≤ x) : (clampNat x n : Int) ≤ x := by
  unfold clampNat
  omega

theorem clampNat_mono {x y : Int} (n : Nat) (h : x ≤ y) : clampNat x n ≤ clampNat y n := by
  unfold clampNat
  omega

theorem jsSubstring_length (s : List Char) (a b : Int) :
    (jsSubstring s a b).length =
      max (clampNat a s.length) (clampNat b s.length) -
        min (clampNat a s.length) (clampNat b s.length) := by
  unfold jsSubstring
  have h1 := clampNat_le a s.length
  have h2 := clampNat_le b s.length
  simp [List.length_drop, List.length_take]
  omega

theorem jsSubstring_length_le_src (s : List Char) (a b : Int) :
    (jsSubstring s a b).length ≤ s.length := by
  rw [jsSubstring_length]
  have h1 := clampNat_le a s.length
  have h2 := clampNat_le b s.length
  omega

theorem jsSubstring_length_le_diff (s : List Char) {a b : Int} (ha : 0 ≤ a) (hab : a ≤ b) :
    ((jsSubstring s a b).length : Int) ≤ b - a := by
  rw [jsSubstring_length]
  unfold clampNat
  omega
/-! ## Truncation ceiling (claim C2) -/

theorem truncMsg_len : truncMsgS.length = 40 := by decide

/-- Core bound: whenever the ceiling is at least the truncation marker's length (40
characters), `truncatePrompt` returns at most `maxChars` characters, in every branch. -/
theorem truncatePrompt_length_le (prompt : List Char) (maxChars : Nat) (hc : 40 ≤ maxChars) :
    (truncatePrompt prompt maxChars).length ≤ maxChars := by
  by_cases h0 : prompt.length ≤ maxChars
  · simp [truncatePrompt, h0]
  · have hsimple := jsSubstring_length_le_diff prompt (a := 0)
      (b := ((maxChars : Int)) - ((40 : Nat) : Int)) (by omega) (by omega)
    have hsnap := jsSubstring_length_le_src
      (jsSubstring prompt 0 (((maxChars : Int)) - ((40 : Nat) : Int))) 0
      (lastIndexOfSub nlnl (jsSubstring prompt 0 (((maxChars : Int)) - ((40 : Nat) : Int))))
    rcases hF : indexOfSub usagePatS prompt with _ | i
    · simp only [truncatePrompt, if_neg h0, hF, truncMsg_len]
      split_ifs with h1 h2 h3 h4
      · simp only [List.length_append, List.length_nil, truncMsg_len]
        push_cast at *
        omega
      · simp only [List.length_append, List.length_nil, truncMsg_len]
        push_cast at *
        omega
      · have hh := jsSubstring_length_le_diff prompt (a := 0)
          (b := ((match truncHeaderMatch prompt with | some h => h | none => 0 : Nat) : Int))
          (by omega) (by omega)
        have hmca := jsSubstring_length_le_diff prompt
          (a := ((match truncHeaderMatch prompt with | some h => h | none => 0 : Nat) : Int))
          (b := ((match truncHeaderMatch prompt with | some h => h | none => 0 : Nat) : Int) +
            (((maxChars : Int) - ((40 : Nat) : Int) - ((0 : Nat) : Int)) -
              ((match truncHeaderMatch prompt with | some h => h | none => 0 : Nat) : Int)))
          (by omega) (by push_cast at h3 ⊢; omega)
        have hfin := jsSubstring_length_le_src
          (jsSubstring prompt
            ((match truncHeaderMatch prompt with | some h => h | none => 0 : Nat) : Int)
            (((match truncHeaderMatch prompt with | some h => h | none => 0 : Nat) : Int) +
              (((maxChars : Int) - ((40 : Nat) : Int) - ((0 : Nat) : Int)) -
                ((match truncHeaderMatch prompt with | some h => h | none => 0 : Nat) : Int)))) 0
          (lastIndexOfSub nlnl
            (jsSubstring prompt
              ((match truncHeaderMatch prompt with | some h => h | none => 0 : Nat) : Int)
              (((match truncHeaderMatch prompt with | some h => h | none => 0 : Nat) : Int) +
                (((maxChars : Int) - ((40 : Nat) : Int) - ((0 : Nat) : Int)) -
                  ((match truncHeaderMatch prompt with | some h => h | none => 0 : Nat) : Int)))))
        simp only [List.length_append, List.length_nil, truncMsg_len]
        push_cast at *
        omega
      · have hh := jsSubstring_length_le_diff prompt (a := 0)
          (b := ((match truncHeaderMatch prompt with | some h => h | none => 0 : Nat) : Int))
          (by omega) (by omega)
        have hmca := jsSubstring_length_le_diff prompt
          (a := ((match truncHeaderMatch prompt with | some h => h | none => 0 : Nat) : Int))
          (b := ((match truncHeaderMatch prompt with | some h => h | none => 0 : Nat) : Int) +
            (((maxChars : Int) - ((40 : Nat) : Int) - ((0 : Nat) : Int)) -
              ((match truncHeaderMatch prompt with | some h => h | none => 0 : Nat) : Int)))
          (by omega) (by push_cast at h3 ⊢; omega)
        simp only [List.length_append, List.length_nil, truncMsg_len]
        push_cast at *
        omega
      · simp only [List.length_append, List.length_nil, truncMsg_len]
        push_cast at *
        omega
    · have hi : i ≤ prompt.length := indexOfSub_le_length hF
      have hdrop : (prompt.drop i).length = prompt.length - i := List.length_drop i prompt
      simp only [truncatePrompt, if_neg h0, hF, truncMsg_len]
      split_ifs with h1 h2 h3 h4
      · simp only [List.length_append, List.length_nil, truncMsg_len]
        push_cast at *
        omega
      · simp only [List.length_append, List.length_nil, truncMsg_len]
        push_cast at *
        omega
      · have hh := jsSubstring_length_le_diff prompt (a := 0)
          (b := ((match truncHeaderMatch prompt with | some h => h | none => 0 : Nat) : Int))
          (by omega) (by omega)
        have hmca := jsSubstring_length_le_diff prompt
          (a := ((match truncHeaderMatch prompt with | some h => h | none => 0 : Nat) : Int))
          (b := ((match truncHeaderMatch prompt with | some h => h | none => 0 : Nat) : Int) +
            (((maxChars : Int) - ((40 : Nat) : Int) - ((prompt.length - i : Nat) : Int)) -
              ((match truncHeaderMatch prompt with | some h => h | none => 0 : Nat) : Int)))
          (by omega) (by push_cast at h3 ⊢; omega)
        have hfin := jsSubstring_length_le_src
          (jsSubstring prompt
            ((match truncHeaderMatch prompt with | some h => h | none => 0 : Nat) : Int)
            (((match truncHeaderMatch prompt with | some h => h | none => 0 : Nat) : Int) +
              (((maxChars : Int) - ((40 : Nat) : Int) - ((prompt.length - i : Nat) : Int)) -
                ((match truncHeaderMatch prompt with | some h => h | none => 0 : Nat) : Int)))) 0
          (lastIndexOfSub nlnl
            (jsSubstring prompt
              ((match truncHeaderMatch prompt with | some h => h | none => 0 : Nat) : Int)
              (((match truncHeaderMatch prompt with | some h => h | none => 0 : Nat) : Int) +
                (((maxChars : Int) - ((40 : Nat) : Int) - ((prompt.length - i : Nat) : Int)) -
                  ((match truncHeaderMatch prompt with | some h => h | none => 0 : Nat) : Int)))))
        simp only [List.length_append, List.length_nil, truncMsg_len, hdrop]
        push_cast at *
        omega
      · have hh := jsSubstring_length_le_diff prompt (a := 0)
          (b := ((match truncHeaderMatch prompt with | some h => h | none => 0 : Nat) : Int))
          (by omega) (by omega)
        have hmca := jsSubstring_length_le_diff prompt
          (a := ((match truncHeaderMatch prompt with | some h => h | none => 0 : Nat) : Int))
          (b := ((match truncHeaderMatch prompt with | some h => h | none => 0 : Nat) : Int) +
            (((maxChars : Int) - ((40 : Nat) : Int) - ((prompt.length - i : Nat) : Int)) -
              ((match truncHeaderMatch prompt with | some h => h | none => 0 : Nat) : Int)))
          (by omega) (by push_cast at h3 ⊢; omega)
        simp only [List.length_append, List.length_nil, truncMsg_len, hdrop]
        push_cast at *
        omega
      · simp only [List.length_append, List.length_nil, truncMsg_len]
        push_cast at *
        omega
/-! ## Lemmas about `replaceAll` and `boldReplace` -/

theorem isPre_split {p y z : List Char} (h : isPre p (y ++ z) = true) :
    (p.length ≤ y.length ∧ isPre p y = true) ∨
      (y.length < p.length ∧ p.take y.length = y ∧ isPre (p.drop y.length) z = true) := by
  rcases (isPre_iff p (y ++ z)).mp h with ⟨t, ht⟩
  by_cases hl : p.length ≤ y.length
  · left
    refine ⟨hl, ?_⟩
    have h2 : List.take p.length y = p := by
      have h3 := congrArg (List.take p.length) ht
      simpa [List.take_append_of_le_length hl, List.take_left'] using h3
    rw [← h2]
    exact isPre_take y p.length
  · right
    push_neg at hl
    refine ⟨hl, ?_, ?_⟩
    · have := congrArg (List.take y.length) ht
      simpa [List.take_append_of_le_length (Nat.le_of_lt hl), List.take_left'] using this.symm
    · have hz : z = p.drop y.length ++ t := by
        have := congrArg (List.drop y.length) ht
        simpa [List.drop_append_of_le_length (Nat.le_of_lt hl), List.drop_left'] using this
      rw [hz]
      exact isPre_append_self _ _

theorem replaceAllF_irrel (p r : List Char) :
    ∀ f₁ f₂ s, s.length ≤ f₁ → s.length ≤ f₂ → replaceAllF p r f₁ s = replaceAllF p r f₂ s := by
  intro f₁
  induction f₁ with
  | zero =>
    intro f₂ s h1 _
    have : s = [] := List.length_eq_zero.mp (Nat.le_zero.mp h1)
    subst this
    cases f₂ <;> rfl
  | succ g ih =>
    intro f₂ s h1 h2
    cases s with
    | nil => cases f₂ <;> rfl
    | cons c cs =>
      cases f₂ with
      | zero => simp at h2
      | succ h =>
        simp only [replaceAllF]
        by_cases hcond : (!p.isEmpty && isPre p (c :: cs)) = true
        · rw [hcond]
          simp only [if_true]
          have hple : 1 ≤ p.length := by
            rcases p with _ | ⟨a, as⟩
            · simp at hcond
            · simp
          have hlen : ((c :: cs).drop p.length).length ≤ cs.length := by
            simp only [List.length_drop, List.length_cons]
            omega
          rw [ih h ((c :: cs).drop p.length) (by simp at h1; omega) (by simp at h2; omega)]
        · rw [Bool.not_eq_true] at hcond
          rw [hcond]
          simp only [Bool.false_eq_true, if_false]
          rw [ih h cs (by simp at h1; omega) (by simp at h2; omega)]

theorem replaceAll_cons (p r : List Char) (c : Char) (cs : List Char) :
    replaceAll p r (c :: cs) =
      if (!p.isEmpty && isPre p (c :: cs)) = true then
        r ++ replaceAll p r ((c :: cs).drop p.length)
      else c :: replaceAll p r cs := by
  unfold replaceAll
  rw [List.length_cons]
  simp only [replaceAllF]
  by_cases hcond : (!p.isEmpty && isPre p (c :: cs)) = true
  · rw [hcond]
    simp only [if_true]
    have hple : 1 ≤ p.length := by
      rcases p with _ | ⟨a, as⟩
      · simp at hcond
      · simp
    congr 1
    exact replaceAllF_irrel p r cs.length ((c :: cs).drop p.length).length _
      (by simp only [List.length_drop, List.length_cons]; omega) (Nat.le_refl _)
  · rw [Bool.not_eq_true] at hcond
    rw [hcond]
    simp

theorem replaceAll_nil (p r : List Char) : replaceAll p r [] = [] := rfl

theorem replaceAll_skip_cons {p : List Char} (r : List Char) {c : Char} (cs : List Char)
    (h : isPre p (c :: cs) = false) : replaceAll p r (c :: cs) = c :: replaceAll p r cs := by
  rw [replaceAll_cons]
  simp [h]

/-- If some character of the pattern never occurs in the subject, the global replace is
the identity. -/
theorem replaceAll_not_occ {p r : List Char} {q : Char} (hq : q ∈ p) :
    ∀ {s : List Char}, (∀ c ∈ s, c ≠ q) → replaceAll p r s = s := by
  intro s
  induction s with
  | nil => intro _; rfl
  | cons c cs ih =>
    intro hs
    have hpre : isPre p (c :: cs) = false := by
      cases hpre : isPre p (c :: cs)
      · rfl
      · exact absurd rfl (hs q (isPre_mem hpre hq))
    rw [replaceAll_skip_cons r cs hpre, ih (fun c hc => hs c (List.mem_cons_of_mem _ hc))]

theorem replaceAll_match_self (a : Char) (as r s : List Char) :
    replaceAll (a :: as) r ((a :: as) ++ s) = r ++ replaceAll (a :: as) r s := by
  have h1 : (a :: as) ++ s = a :: (as ++ s) := rfl
  rw [h1, replaceAll_cons]
  have h2 : isPre (a :: as) (a :: (as ++ s)) = true := isPre_append_self (a :: as) s
  simp only [h2, List.isEmpty_cons, Bool.not_false, Bool.and_self, if_true]
  congr 1
  have h3 : (a :: (as ++ s)).drop (a :: as).length = s := by
    have : (a :: (as ++ s)) = (a :: as) ++ s := rfl
    rw [this, List.drop_left]
  rw [h3]

/-- Scan past a run that cannot start a match (no character equal to the pattern head). -/
theorem replaceAll_skip_run {a : Char} (as r : List Char) :
    ∀ {x : List Char}, (∀ c ∈ x, c ≠ a) → ∀ s,
      replaceAll (a :: as) r (x ++ s) = x ++ replaceAll (a :: as) r s := by
  intro x
  induction x with
  | nil => intro _ s; rfl
  | cons c cx ih =>
    intro hx s
    have hc : c ≠ a := hx c (List.mem_cons_self c cx)
    have hac : (a == c) = false := beq_eq_false_iff_ne.mpr (Ne.symm hc)
    have hpre : isPre (a :: as) (c :: (cx ++ s)) = false := by simp [isPre, hac]
    have hrest := ih (fun d hd => hx d (List.mem_cons_of_mem _ hd)) s
    simp only [List.cons_append]
    rw [replaceAll_skip_cons r _ hpre, hrest]

/-- Matches of a newline-free pattern never cross a newline: the global replace
distributes over a newline split. -/
theorem replaceAll_append_nl {p : List Char} (hp : p ≠ []) (hnl : '\n' ∉ p) (r : List Char) :
    ∀ x s, replaceAll p r (x ++ '\n' :: s) = replaceAll p r x ++ '\n' :: replaceAll p r s := by
  have key : ∀ n x s, x.length ≤ n →
      replaceAll p r (x ++ '\n' :: s) = replaceAll p r x ++ '\n' :: replaceAll p r s := by
    intro n
    induction n with
    | zero =>
      intro x s hx
      have : x = [] := List.length_eq_zero.mp (Nat.le_zero.mp hx)
      subst this
      have hpre : isPre p ('\n' :: s) = false := by
        cases hpre : isPre p ('\n' :: s)
        · rfl
        · rcases p with _ | ⟨a, as⟩
          · exact absurd rfl hp
          · simp only [isPre, Bool.and_eq_true, beq_iff_eq] at hpre
            exact absurd (hpre.1 ▸ List.mem_cons_self a as) hnl
      rw [List.nil_append, replaceAll_skip_cons r s hpre, replaceAll_nil]
      simp
    | succ m ih =>
      intro x s hx
      cases x with
      | nil =>
        have hpre : isPre p ('\n' :: s) = false := by
          cases hpre : isPre p ('\n' :: s)
          · rfl
          · rcases p with _ | ⟨a, as⟩
            · exact absurd rfl hp
            · simp only [isPre, Bool.and_eq_true, beq_iff_eq] at hpre
              exact absurd (hpre.1 ▸ List.mem_cons_self a as) hnl
        rw [List.nil_append, replaceAll_skip_cons r s hpre, replaceAll_nil]
        simp
      | cons c cx =>
        by_cases hpre : isPre p (c :: (cx ++ '\n' :: s)) = true
        · rcases isPre_split (y := c :: cx) (z := '\n' :: s) hpre with ⟨hle, hpx⟩ | ⟨hgt, _, hsuf⟩
          · rcases (isPre_iff p (c :: cx)).mp hpx with ⟨u, hu⟩
            have hne : p ≠ [] := hp
            have hbig : c :: (cx ++ '\n' :: s) = p ++ (u ++ '\n' :: s) := by
              have : (c :: cx) ++ '\n' :: s = (p ++ u) ++ '\n' :: s := by rw [← hu]
              simpa using this
            rcases p with _ | ⟨a, as⟩
            · exact absurd rfl hp
            · have hx1 : (c :: cx) = (a :: as) ++ u := hu
              rw [List.cons_append, hbig, replaceAll_match_self, hx1, replaceAll_match_self]
              have hulen : u.length ≤ m := by
                have := congrArg List.length hx1
                simp at this hx
                omega
              rw [ih u s hulen]
              simp
          · rcases List.exists_cons_of_ne_nil (l := p.drop (c :: cx).length)
              (by intro hdrop; rw [List.drop_eq_nil_iff] at hdrop; omega) with ⟨d, ds, hds⟩
            rw [hds] at hsuf
            simp only [isPre, Bool.and_eq_true, beq_iff_eq] at hsuf
            have : d ∈ p := List.mem_of_mem_drop (hds ▸ List.mem_cons_self d ds)
            rw [hsuf.1] at this
            exact absurd this hnl
        · have hpre2 : isPre p (c :: cx) = false := by
            cases hpre2 : isPre p (c :: cx)
            · rfl
            · rcases (isPre_iff p (c :: cx)).mp hpre2 with ⟨u, hu⟩
              have : isPre p (c :: (cx ++ '\n' :: s)) = true := by
                have : c :: (cx ++ '\n' :: s) = p ++ (u ++ '\n' :: s) := by
                  have h' : (c :: cx) ++ '\n' :: s = (p ++ u) ++ '\n' :: s := by rw [← hu]
                  simpa using h'
                rw [this]
                exact (isPre_iff p _).mpr ⟨u ++ '\n' :: s, rfl⟩
              exact absurd this hpre
          rw [Bool.not_eq_true] at hpre
          rw [List.cons_append, replaceAll_skip_cons r _ hpre,
            replaceAll_skip_cons r _ hpre2, ih cx s (by simp at hx; omega)]
          simp
  intro x s
  exact key x.length x s (Nat.le_refl _)

theorem replaceAll_joinNl {p : List Char} (hp : p ≠ []) (hnl : '\n' ∉ p) (r : List Char) :
    ∀ lines, replaceAll p r (joinNl lines) = joinNl (lines.map (replaceAll p r)) := by
  intro lines
  induction lines with
  | nil => rfl
  | cons l ls ih =>
    cases ls with
    | nil => simp [joinNl]
    | cons l2 ls2 =>
      have h1 : joinNl (l :: l2 :: ls2) = l ++ '\n' :: joinNl (l2 :: ls2) := rfl
      have h2 : joinNl (List.map (replaceAll p r) (l :: l2 :: ls2)) =
          replaceAll p r l ++ '\n' :: joinNl (List.map (replaceAll p r) (l2 :: ls2)) := rfl
      rw [h1, h2, replaceAll_append_nl hp hnl, ih]
/-! ## Lemmas about `boldReplace`, `GetSubstitution`, and `insertAfterHeader` -/

theorem boldReplaceF_irrel :
    ∀ f₁ f₂ s, s.length ≤ f₁ → s.length ≤ f₂ → boldReplaceF f₁ s = boldReplaceF f₂ s := by
  intro f₁
  induction f₁ with
  | zero =>
    intro f₂ s h1 _
    have : s = [] := List.length_eq_zero.mp (Nat.le_zero.mp h1)
    subst this
    cases f₂ <;> rfl
  | succ g ih =>
    intro f₂ s h1 h2
    cases s with
    | nil => cases f₂ <;> rfl
    | cons c cs =>
      cases f₂ with
      | zero => simp at h2
      | succ f =>
        by_cases hc : (c == '*') = true
        · cases cs with
          | nil => simp only [boldReplaceF, hc, if_true]
          | cons c2 cs2 =>
            by_cases hc2 : (c2 == '*') = true
            · by_cases hm : (!(cs2.takeWhile (· != '*')).isEmpty &&
                  isPre ['*', '*'] (cs2.drop (cs2.takeWhile (· != '*')).length)) = true
              · simp only [boldReplaceF, hc, hc2, hm, if_true]
                rw [ih f (cs2.drop ((cs2.takeWhile (· != '*')).length + 2))
                  (by simp only [List.length_cons, List.length_drop] at *; omega) (by simp only [List.length_cons, List.length_drop] at *; omega)]
              · rw [Bool.not_eq_true] at hm
                simp only [boldReplaceF, hc, hc2, hm, if_true, Bool.false_eq_true, if_false]
                rw [ih f (c2 :: cs2) (by simp only [List.length_cons, List.length_drop] at *; omega) (by simp only [List.length_cons, List.length_drop] at *; omega)]
            · rw [Bool.not_eq_true] at hc2
              simp only [boldReplaceF, hc, hc2, if_true, Bool.false_eq_true, if_false]
              rw [ih f (c2 :: cs2) (by simp only [List.length_cons, List.length_drop] at *; omega) (by simp only [List.length_cons, List.length_drop] at *; omega)]
        · rw [Bool.not_eq_true] at hc
          simp only [boldReplaceF, hc, Bool.false_eq_true, if_false]
          rw [ih f cs (by simp only [List.length_cons, List.length_drop] at *; omega) (by simp only [List.length_cons, List.length_drop] at *; omega)]

theorem boldReplace_nil : boldReplace [] = [] := rfl

theorem boldReplace_cons_nostar {c : Char} (hc : c ≠ '*') (cs : List Char) :
    boldReplace (c :: cs) = c :: boldReplace cs := by
  unfold boldReplace
  rw [List.length_cons]
  simp only [boldReplaceF]
  have : (c == '*') = false := by simp [hc]
  rw [this]
  simp

theorem boldReplace_skip_run :
    ∀ {x : List Char}, (∀ c ∈ x, c ≠ '*') → ∀ s, boldReplace (x ++ s) = x ++ boldReplace s := by
  intro x
  induction x with
  | nil => intro _ s; rfl
  | cons c cx ih =>
    intro hx s
    rw [List.cons_append, boldReplace_cons_nostar (hx c (List.mem_cons_self c cx)),
      ih (fun d hd => hx d (List.mem_cons_of_mem _ hd)) s]
    simp

theorem takeWhile_neq_star :
    ∀ {t : List Char}, (∀ c ∈ t, c ≠ '*') → ∀ z, (t ++ '*' :: z).takeWhile (· != '*') = t := by
  intro t
  induction t with
  | nil => intro _ z; simp [List.takeWhile]
  | cons c ct ih =>
    intro ht z
    have hc : (c != '*') = true := by simp [ht c (List.mem_cons_self c ct)]
    simp only [List.cons_append, List.takeWhile_cons, hc, if_true]
    rw [ih (fun d hd => ht d (List.mem_cons_of_mem _ hd)) z]

theorem boldReplace_unit {t : List Char} (ht : t ≠ []) (hstar : ∀ c ∈ t, c ≠ '*')
    (s : List Char) :
    boldReplace ('*' :: '*' :: (t ++ '*' :: '*' :: s)) = t ++ ':' :: boldReplace s := by
  unfold boldReplace
  rw [List.length_cons]
  simp only [boldReplaceF]
  have htake : (t ++ '*' :: ('*' :: s)).takeWhile (· != '*') = t :=
    takeWhile_neq_star hstar ('*' :: s)
  have hdropt : (t ++ '*' :: '*' :: s).drop t.length = '*' :: '*' :: s := List.drop_left t _
  have hdropt2 : (t ++ '*' :: '*' :: s).drop (t.length + 2) = s := by
    have h1 : ∀ l : List Char, l.drop (t.length + 2) = (l.drop t.length).drop 2 := by
      intro l
      rw [List.drop_drop]
    rw [h1, hdropt]
    rfl
  have hne : (!t.isEmpty) = true := by
    simp [List.isEmpty_iff, ht]
  have hpre2 : isPre ['*', '*'] ('*' :: '*' :: s) = true := by simp [isPre]
  simp only [beq_self_eq_true, if_true, htake, hdropt, hdropt2, hne, hpre2,
    Bool.true_and, Bool.and_self]
  congr 1
  congr 1
  apply boldReplaceF_irrel
  · simp only [List.length_cons, List.length_append]
    omega
  · exact Nat.le_refl _

/-! GetSubstitution -/

theorem noDollarPairB_tail {c : Char} {r : List Char} (h : noDollarPairB (c :: r) = true) :
    noDollarPairB r = true := by
  cases r with
  | nil => rfl
  | cons c2 r2 =>
    simp only [noDollarPairB, Bool.and_eq_true] at h
    exact h.2

theorem noDollarPairB_of_dollarFree :
    ∀ {s : List Char}, (∀ c ∈ s, c ≠ '$') → noDollarPairB s = true := by
  intro s
  induction s with
  | nil => intro _; rfl
  | cons c cs ih =>
    intro hs
    cases cs with
    | nil => rfl
    | cons c2 r2 =>
      simp only [noDollarPairB, Bool.and_eq_true]
      constructor
      · have : (c == '$') = false := by simp [hs c (List.mem_cons_self _ _)]
        simp [this]
      · exact ih (fun d hd => hs d (List.mem_cons_of_mem _ hd))

theorem noDollarPairB_append_left :
    ∀ {x y : List Char}, noDollarPairB (x ++ y) = true → noDollarPairB x = true := by
  intro x
  induction x with
  | nil => intro y _; rfl
  | cons c cx ih =>
    intro y h
    cases cx with
    | nil => rfl
    | cons c2 r2 =>
      simp only [List.cons_append, noDollarPairB, Bool.and_eq_true] at h ⊢
      exact ⟨h.1, ih (y := y) h.2⟩

theorem noDollarPairB_append {x y : List Char} (hx : noDollarPairB x = true)
    (hy : noDollarPairB y = true) (hlast : x.getLast? ≠ some '$') :
    noDollarPairB (x ++ y) = true := by
  induction x with
  | nil => simpa using hy
  | cons c cx ih =>
    cases cx with
    | nil =>
      cases y with
      | nil => simpa using hx
      | cons c2 r2 =>
        simp only [List.getLast?_singleton] at hlast
        have hc : (c == '$') = false := by
          simp only [beq_eq_false_iff_ne]
          intro hcc
          exact hlast (by rw [hcc])
        simp only [List.cons_append, List.nil_append, noDollarPairB, Bool.and_eq_true]
        exact ⟨by simp [hc], hy⟩
    | cons c2 r2 =>
      simp only [noDollarPairB, Bool.and_eq_true] at hx
      have hlast2 : (c2 :: r2).getLast? ≠ some '$' := by
        rwa [List.getLast?_cons_cons] at hlast
      simp only [List.cons_append, noDollarPairB, Bool.and_eq_true]
      exact ⟨hx.1, by simpa using ih hx.2 hlast2⟩

theorem getSubstitution_eq_self (m b a : List Char) :
    ∀ {r : List Char}, noDollarPairB r = true → getSubstitution m b a r = r := by
  have key : ∀ n r, List.length r ≤ n → noDollarPairB r = true →
      getSubstitution m b a r = r := by
    intro n
    induction n with
    | zero =>
      intro r h1 _
      have : r = [] := List.length_eq_zero.mp (Nat.le_zero.mp h1)
      subst this
      rfl
    | succ k ih =>
      intro r h1 hnp
      cases r with
      | nil => rfl
      | cons c r' =>
        by_cases hc : (c == '$') = true
        · cases r' with
          | nil =>
            rw [getSubstitution.eq_def]
            simp only [hc, if_true]
            simp only [beq_iff_eq] at hc
            rw [hc]
          | cons c2 r2 =>
            simp only [noDollarPairB, Bool.and_eq_true, hc, Bool.not_true,
              Bool.false_or, Bool.not_eq_true'] at hnp
            rcases hnp with ⟨hspec, htl⟩
            have h1' : (c2 == '$') = false := by
              cases hq : (c2 == '$') <;> simp_all [dollarSpecial]
            have h2' : (c2 == '&') = false := by
              cases hq : (c2 == '&') <;> simp_all [dollarSpecial]
            have h3' : (c2 == Char.ofNat 96) = false := by
              cases hq : (c2 == Char.ofNat 96) <;> simp_all [dollarSpecial]
            have h4' : (c2 == Char.ofNat 39) = false := by
              cases hq : (c2 == Char.ofNat 39) <;> simp_all [dollarSpecial]
            rw [getSubstitution.eq_def]
            simp only [hc, if_true]
            rw [h1', h2', h3', h4']
            simp only [Bool.false_eq_true, if_false]
            simp only [beq_iff_eq] at hc
            rw [hc, ih r2 (by simp at h1; omega) (noDollarPairB_tail htl)]
        · rw [Bool.not_eq_true] at hc
          rw [getSubstitution.eq_def]
          simp only [hc, Bool.false_eq_true, if_false]
          rw [ih r' (by simp at h1; omega) (noDollarPairB_tail hnp)]
  intro r hr
  exact key r.length r (Nat.le_refl _) hr

/-! insertAfterHeader -/

theorem headerMatchS_bound {s : List Char} {h : Nat} (hm : headerMatchS s = some h) :
    h ≤ s.length ∧ ∃ u, s.take h = u ++ nlnl := by
  rcases s with _ | ⟨c1, _ | ⟨c2, rest⟩⟩
  · simp [headerMatchS] at hm
  · simp [headerMatchS] at hm
  · by_cases hb : (c1 == '#' && c2 == ' ') = true
    · rcases hI : indexOfSub nlnl rest with _ | i
      · simp [headerMatchS, hb, hI] at hm
      · rcases hJ : indexOfSub nlnl (rest.drop (i + 2)) with _ | j
        · simp [headerMatchS, hb, hI, hJ] at hm
        · simp only [headerMatchS, hb, hI, hJ, if_true, Option.some.injEq] at hm
          subst hm
          rcases indexOfSub_some hI with ⟨_, hIlen⟩
          rcases indexOfSub_some hJ with ⟨hJpre, hJlen⟩
          simp only [List.length_drop, nlnl, List.length_cons, List.length_nil] at hIlen hJlen
          constructor
          · simp only [List.length_cons]
            omega
          · have hdd : (rest.drop (i + 2)).drop j = rest.drop (i + 2 + j) := List.drop_drop j (i + 2) rest
            rw [hdd] at hJpre
            rcases (isPre_iff nlnl (rest.drop (i + 2 + j))).mp hJpre with ⟨w, hw⟩
            have hsplit : (c1 :: c2 :: rest).take (2 + i + 2 + j + 2) =
                (c1 :: c2 :: rest).take (2 + i + 2 + j) ++
                  ((c1 :: c2 :: rest).drop (2 + i + 2 + j)).take 2 := by
              have := List.take_add (c1 :: c2 :: rest) (2 + i + 2 + j) 2
              simpa using this
            refine ⟨(c1 :: c2 :: rest).take (2 + i + 2 + j), ?_⟩
            rw [hsplit]
            congr 1
            have hd2 : (c1 :: c2 :: rest).drop (2 + i + 2 + j) = rest.drop (i + 2 + j) := by
              have : (2 : Nat) + i + 2 + j = (i + 2 + j) + 2 := by omega
              rw [this]
              rfl
            rw [hd2]
            have : rest.drop (i + 2 + j) = '\n' :: '\n' :: w := by
              rw [hw]
              rfl
            rw [this]
            rfl
    · simp [headerMatchS, hb] at hm

/-- Shared decomposition: when no `$`-substitution pattern occurs in the prompt or the
inserted content, `insertAfterHeader` inserts the content at exactly one position of
the unchanged prompt. -/
theorem insertAfterHeader_decomp (prompt content : List Char)
    (hp : noDollarPairB prompt = true) (hc : noDollarPairB content = true) :
    ∃ h, h ≤ prompt.length ∧
      insertAfterHeader prompt content = prompt.take h ++ content ++ prompt.drop h := by
  cases hm : headerMatchS prompt with
  | none =>
    refine ⟨0, Nat.zero_le _, ?_⟩
    simp [insertAfterHeader, hm]
  | some h =>
    rcases headerMatchS_bound hm with ⟨hle, u, hu⟩
    refine ⟨h, hle, ?_⟩
    have hidx : indexOfSub (prompt.take h) prompt = some 0 :=
      indexOfSub_of_isPre (isPre_take prompt h)
    have hlen : (prompt.take h).length = h := by
      rw [List.length_take]
      omega
    have hnp1 : noDollarPairB (prompt.take h) = true := by
      have : prompt = prompt.take h ++ prompt.drop h := (List.take_append_drop h prompt).symm
      exact noDollarPairB_append_left (y := prompt.drop h) (by rwa [← this])
    have hlast : (prompt.take h).getLast? ≠ some '$' := by
      rw [hu]
      have : u ++ nlnl = (u ++ ['\n']) ++ ['\n'] := by simp [nlnl]
      rw [this, List.getLast?_concat]
      simp
    have hsub : getSubstitution (prompt.take h) [] (prompt.drop h)
        (prompt.take h ++ content) = prompt.take h ++ content :=
      getSubstitution_eq_self _ _ _ (noDollarPairB_append hnp1 hc hlast)
    simp only [insertAfterHeader, hm, jsReplaceFirst, hidx, hlen, Nat.zero_add,
      List.take_zero, List.nil_append, hsub]
/-! ## Characterization of the assembler -/

/-- Structure of `assembleAdaptivePrompt`: core first, then the conditional extended and
examples blocks, empty warnings. -/
theorem assemble_spec (config : PromptGeneratorConfig) (category : List Char) :
    assembleAdaptivePrompt config category =
      ⟨corePromptS ++
        (if condE config.platform then nlnl ++ resolveExtended config.platform else []) ++
        (if condX config.platform category then nlnl ++ resolveExample category else []),
       [],
       [("core").data] ++ (if condE config.platform then [("extended").data] else []) ++
        (if condX config.platform category then [("examples").data] else [])⟩ := by
  unfold assembleAdaptivePrompt
  by_cases hE : condE config.platform = true
  · by_cases hX : condX config.platform category = true
    · simp [hE, hX, List.append_assoc]
    · simp at hX
      simp [hE, hX, List.append_assoc]
  · simp at hE
    by_cases hX : condX config.platform category = true
    · simp [hE, hX, List.append_assoc]
    · simp at hX
      simp [hE, hX, List.append_assoc]

theorem resolveExtended_cases (p : List Char) :
    resolveExtended p =
      if p = cursorKey then extCursorS
      else if p = claudeKey then extClaudeS
      else if p = copilotKey then extCopilotS
      else extCursorS := by
  unfold resolveExtended extendedPrompts
  by_cases h1 : p = cursorKey
  · simp [List.lookup, h1, jsOrS, show extCursorS.isEmpty = false from rfl]
  · by_cases h2 : p = claudeKey
    · simp [List.lookup, h1, h2, jsOrS, show extClaudeS.isEmpty = false from rfl,
        show (claudeKey == cursorKey) = false from rfl]
      decide
    · by_cases h3 : p = copilotKey
      · simp [List.lookup, h1, h2, h3, jsOrS, show extCopilotS.isEmpty = false from rfl,
          show (copilotKey == cursorKey) = false from rfl,
          show (copilotKey == claudeKey) = false from rfl]
        decide
      · have e1 : (p == cursorKey) = false := by simp [h1]
        have e2 : (p == claudeKey) = false := by simp [h2]
        have e3 : (p == copilotKey) = false := by simp [h3]
        simp [List.lookup, e1, e2, e3, h1, h2, h3, jsOrS,
          show extCursorS.isEmpty = false from rfl]

theorem resolveExample_cases (c : List Char) :
    resolveExample c =
      if c = reactKey then exReactS
      else if c = nodeKey then exNodeS
      else [] := by
  unfold resolveExample examplesMap
  by_cases h1 : c = reactKey
  · simp [List.lookup, h1, jsOrS, show exReactS.isEmpty = false from rfl]
  · by_cases h2 : c = nodeKey
    · simp [List.lookup, h1, h2, jsOrS, show exNodeS.isEmpty = false from rfl,
        show (nodeKey == reactKey) = false from rfl]
      decide
    · have e1 : (c == reactKey) = false := by simp [h1]
      have e2 : (c == nodeKey) = false := by simp [h2]
      simp [List.lookup, e1, e2, h1, h2, jsOrS]

theorem getPlatformLimit_cases (p : List Char) :
    getPlatformLimit p =
      if p = cursorKey then 15000
      else if p = claudeKey then 20000
      else if p = ollamaKey then 8000
      else if p = universalKey then 12000
      else 10000 := by
  unfold getPlatformLimit platformLimits
  by_cases h1 : p = cursorKey
  · simp [List.lookup, h1, cursorLimits]
  · by_cases h2 : p = claudeKey
    · simp [List.lookup, h1, h2, claudeLimits, show (claudeKey == cursorKey) = false from rfl]
      decide
    · by_cases h3 : p = ollamaKey
      · simp [List.lookup, h1, h2, h3, ollamaLimits,
          show (ollamaKey == cursorKey) = false from rfl,
          show (ollamaKey == claudeKey) = false from rfl]
        decide
      · by_cases h4 : p = universalKey
        · simp [List.lookup, h1, h2, h3, h4, universalLimits,
            show (universalKey == cursorKey) = false from rfl,
            show (universalKey == claudeKey) = false from rfl,
            show (universalKey == ollamaKey) = false from rfl]
          decide
        · have e1 : (p == cursorKey) = false := by simp [h1]
          have e2 : (p == claudeKey) = false := by simp [h2]
          have e3 : (p == ollamaKey) = false := by simp [h3]
          have e4 : (p == universalKey) = false := by simp [h4]
          simp [List.lookup, e1, e2, e3, e4, h1, h2, h3, h4]

/-- The extended-fragment inclusion check passes for every destination: the core plus
any extended fragment costs at most `10 × (402 + 156) = 5580` scaled units, below
`7 × 8000` for the smallest ceiling. -/
theorem condE_true (p : List Char) : condE p = true := by
  unfold condE
  rw [resolveExtended_cases, getPlatformLimit_cases]
  split_ifs <;> decide

/-- The examples inclusion check reduces to the fragment being nonempty. -/
theorem condX_eq (p c : List Char) : condX p c = !(resolveExample c).isEmpty := by
  unfold condX costAfterE
  rw [condE_true]
  simp only [if_true]
  rw [resolveExample_cases, resolveExtended_cases, getPlatformLimit_cases]
  split_ifs <;> decide

theorem resolveExtended_length_le (p : List Char) : (resolveExtended p).length ≤ 621 := by
  rw [resolveExtended_cases]
  split_ifs <;> decide

theorem resolveExample_length_le (c : List Char) : (resolveExample c).length ≤ 642 := by
  rw [resolveExample_cases]
  split_ifs <;> decide

theorem getPlatformLimit_ge (p : List Char) : 8000 ≤ getPlatformLimit p := by
  rw [getPlatformLimit_cases]
  split_ifs <;> omega

/-! ## Substring and digit machinery (for the Claude over-limit warning) -/

theorem containsSubB_iff (p : List Char) :
    ∀ s, containsSubB p s = true ↔ ∃ i, isPre p (s.drop i) = true := by
  intro s
  induction s with
  | nil =>
    simp only [containsSubB, List.drop_nil, List.isEmpty_iff]
    constructor
    · rintro rfl; exact ⟨0, rfl⟩
    · rintro ⟨i, hi⟩
      cases p with
      | nil => rfl
      | cons a as => simp [isPre] at hi
  | cons c tl ih =>
    simp only [containsSubB, Bool.or_eq_true, ih]
    constructor
    · rintro (h | ⟨i, hi⟩)
      · exact ⟨0, h⟩
      · exact ⟨i + 1, hi⟩
    · rintro ⟨i, hi⟩
      cases i with
      | zero => exact Or.inl hi
      | succ j => exact Or.inr ⟨j, hi⟩

theorem containsSubB_of_isPre_drop {p s : List Char} {i : Nat}
    (h : isPre p (s.drop i) = true) : containsSubB p s = true :=
  (containsSubB_iff p s).mpr ⟨i, h⟩

/-- A nonempty pattern with no digit characters cannot occur in `A ++ D ++ B` when `D`
is a nonempty all-digit block and the pattern occurs in neither `A` nor `B`. -/
theorem containsSubB_around_digits {pat A D B : List Char}
    (hne : pat ≠ []) (hnd : ∀ c ∈ pat, c.isDigit = false) (hD : D ≠ [])
    (hDd : ∀ c ∈ D, c.isDigit = true)
    (hA : containsSubB pat A = false) (hB : containsSubB pat B = false) :
    containsSubB pat (A ++ (D ++ B)) = false := by
  by_contra hcon
  rw [Bool.not_eq_false, containsSubB_iff] at hcon
  rcases hcon with ⟨i, hi⟩
  rcases pat with _ | ⟨p0, pt⟩
  · exact hne rfl
  by_cases hiA : i ≤ A.length
  · rw [List.drop_append_of_le_length hiA] at hi
    rcases isPre_split hi with ⟨_, hin⟩ | ⟨hlt, htake, hsuf⟩
    · exact absurd (containsSubB_of_isPre_drop hin) (by simp [hA])
    · rcases D with _ | ⟨e, D'⟩
      · exact hD rfl
      · rcases hdrop : (p0 :: pt).drop (A.drop i).length with _ | ⟨d, ds⟩
        · rw [List.drop_eq_nil_iff] at hdrop
          omega
        · rw [hdrop] at hsuf
          simp only [List.cons_append, isPre, Bool.and_eq_true, beq_iff_eq] at hsuf
          have hdmem : d ∈ p0 :: pt :=
            List.mem_of_mem_drop (hdrop ▸ List.mem_cons_self d ds)
          have : d.isDigit = true := hsuf.1 ▸ hDd e (List.mem_cons_self e D')
          rw [hnd d hdmem] at this
          exact Bool.false_ne_true this
  · push_neg at hiA
    have hdropA : (A ++ (D ++ B)).drop i = (D ++ B).drop (i - A.length) := by
      rcases Nat.exists_eq_add_of_le (Nat.le_of_lt hiA) with ⟨j, hj⟩
      subst hj
      rw [List.drop_append]
      congr 1
      omega
    rw [hdropA] at hi
    by_cases hjD : i - A.length < D.length
    · rw [List.drop_append_of_le_length (Nat.le_of_lt hjD)] at hi
      rcases hDj : D.drop (i - A.length) with _ | ⟨e, es⟩
      · rw [List.drop_eq_nil_iff] at hDj
        omega
      · rw [hDj] at hi
        rcases isPre_split (y := e :: es) (z := B) (by simpa using hi) with
          ⟨_, hin⟩ | ⟨_, htake, _⟩
        · simp only [isPre, Bool.and_eq_true, beq_iff_eq] at hin
          have hemem : e ∈ D := List.mem_of_mem_drop (hDj ▸ List.mem_cons_self e es)
          have : e.isDigit = true := hDd e hemem
          rw [← hin.1, hnd p0 (List.mem_cons_self p0 pt)] at this
          exact Bool.false_ne_true this
        · have hp0 : p0 = e := by
            have h' := htake
            simp only [List.length_cons, List.take_succ_cons] at h'
            injection h' with h1 h2
          have hemem : e ∈ D := List.mem_of_mem_drop (hDj ▸ List.mem_cons_self e es)
          have : e.isDigit = true := hDd e hemem
          rw [← hp0, hnd p0 (List.mem_cons_self p0 pt)] at this
          exact Bool.false_ne_true this
    · push_neg at hjD
      have hdropD : (D ++ B).drop (i - A.length) = B.drop (i - A.length - D.length) := by
        rcases Nat.exists_eq_add_of_le hjD with ⟨j, hj⟩
        rw [hj, List.drop_append]
        congr 1
        omega
      rw [hdropD] at hi
      exact absurd (containsSubB_of_isPre_drop hi) (by simp [hB])

/-- Pointwise facts about every character of a list, obtained from an executable
`List.all` check (whose evaluation is iterative, unlike the `∀ ∈` decision
procedure). -/
theorem forall_mem_of_all {q : Char → Prop} {p : Char → Bool} {l : List Char}
    (hpq : ∀ c, p c = true → q c) (h : l.all p = true) : ∀ c ∈ l, q c :=
  fun c hc => hpq c (List.all_eq_true.mp h c hc)
/-! ## Bridging lemmas for claim statements -/

theorem condE_iff (p : List Char) :
    condE p = true ↔
      (resolveExtended p ≠ [] ∧
        10 * (estimateTokens corePromptS + estimateTokens (resolveExtended p)) <
          7 * getPlatformLimit p) := by
  simp [condE, List.isEmpty_iff, Bool.and_eq_true, decide_eq_true_eq]

theorem condX_iff (p c : List Char) :
    condX p c = true ↔
      (resolveExample c ≠ [] ∧
        10 * (costAfterE p + estimateTokens (resolveExample c)) < 9 * getPlatformLimit p) := by
  simp [condX, List.isEmpty_iff, Bool.and_eq_true, decide_eq_true_eq]

theorem containsSubB_append_self (p x y : List Char) : containsSubB p (p ++ x ++ y) = true := by
  apply containsSubB_of_isPre_drop (i := 0)
  rw [List.drop_zero, List.append_assoc]
  exact isPre_append_self p (x ++ y)

theorem lookupExt_cases (p : List Char) :
    extendedPrompts.lookup p =
      if p = cursorKey then some extCursorS
      else if p = claudeKey then some extClaudeS
      else if p = copilotKey then some extCopilotS
      else none := by
  unfold extendedPrompts
  by_cases h1 : p = cursorKey
  · simp [List.lookup, h1]
  · by_cases h2 : p = claudeKey
    · simp [List.lookup, h1, h2]
      decide
    · by_cases h3 : p = copilotKey
      · simp [List.lookup, h1, h2, h3]
        decide
      · have e1 : (p == cursorKey) = false := by simp [h1]
        have e2 : (p == claudeKey) = false := by simp [h2]
        have e3 : (p == copilotKey) = false := by simp [h3]
        simp [List.lookup, e1, e2, e3, h1, h2, h3]

theorem lookupEx_cases (c : List Char) :
    examplesMap.lookup c =
      if c = reactKey then some exReactS
      else if c = nodeKey then some exNodeS
      else none := by
  unfold examplesMap
  by_cases h1 : c = reactKey
  · simp [List.lookup, h1]
  · by_cases h2 : c = nodeKey
    · simp [List.lookup, h1, h2]
      decide
    · have e1 : (c == reactKey) = false := by simp [h1]
      have e2 : (c == nodeKey) = false := by simp [h2]
      simp [List.lookup, e1, e2, h1, h2]

/-! ## Claim C2 — truncation ceiling invariant -/

/-- C2 (amended): for every document whose character length exceeds the ceiling, the
character-ceiling truncation returns at most `ceiling` characters, provided the
ceiling is at least the truncation marker's length (40).  (The unamended claim, with
no lower bound on the ceiling, fails: see the counterexample.) -/
theorem C2_truncation_ceiling (document : List Char) (ceiling : Nat)
    (hdoc : ceiling < document.length) (hmarker : 40 ≤ ceiling) :
    (truncatePrompt document ceiling).length ≤ ceiling :=
  truncatePrompt_length_le document ceiling hmarker

/-- C2 witness: a concrete 100-character document truncated at ceiling 60. -/
theorem C2_truncation_ceiling_witness :
    60 < (List.replicate 100 'a').length ∧ 40 ≤ 60 ∧
      (truncatePrompt (List.replicate 100 'a') 60).length ≤ 60 :=
  ⟨by decide, by decide,
    C2_truncation_ceiling (List.replicate 100 'a') 60 (by decide) (by decide)⟩

/-- C2 counterexample to the unamended claim: a 50-character document truncated at
ceiling 10 yields the 40-character truncation marker alone, exceeding the ceiling. -/
theorem C2_truncation_ceiling_cx :
    10 < (List.replicate 50 'a').length ∧
      ¬ (truncatePrompt (List.replicate 50 'a') 10).length ≤ 10 := by
  decide

/-! ## Claim C3 — assembler inclusion algorithm -/

/-- C3: starting from the core fragment, `extended` is appended (label recorded)
exactly when the fragment is nonempty and the cumulative cost check against
`0.7 × C` passes; afterwards `examples` is appended exactly when nonempty and the
updated cumulative cost check against `0.9 × C` passes; extended is checked first
and a failed check is never retried (the conditional structure is one-shot). -/
theorem C3_assembler_inclusion (config : PromptGeneratorConfig) (category : List Char) :
    (assembleAdaptivePrompt config category).appliedOptimizations =
      ("core").data ::
        ((if resolveExtended config.platform ≠ [] ∧
            10 * (estimateTokens corePromptS + estimateTokens (resolveExtended config.platform)) <
              7 * getPlatformLimit config.platform then [("extended").data] else []) ++
         (if resolveExample category ≠ [] ∧
            10 * (costAfterE config.platform + estimateTokens (resolveExample category)) <
              9 * getPlatformLimit config.platform then [("examples").data] else [])) ∧
    (assembleAdaptivePrompt config category).optimizedPrompt =
      corePromptS ++
        (if resolveExtended config.platform ≠ [] ∧
            10 * (estimateTokens corePromptS + estimateTokens (resolveExtended config.platform)) <
              7 * getPlatformLimit config.platform then nlnl ++ resolveExtended config.platform
          else []) ++
        (if resolveExample category ≠ [] ∧
            10 * (costAfterE config.platform + estimateTokens (resolveExample category)) <
              9 * getPlatformLimit config.platform then nlnl ++ resolveExample category
          else []) := by
  rw [assemble_spec]
  by_cases hE : resolveExtended config.platform ≠ [] ∧
      10 * (estimateTokens corePromptS + estimateTokens (resolveExtended config.platform)) <
        7 * getPlatformLimit config.platform
  · by_cases hX : resolveExample category ≠ [] ∧
        10 * (costAfterE config.platform + estimateTokens (resolveExample category)) <
          9 * getPlatformLimit config.platform
    · simp [if_pos hE, if_pos hX, if_pos ((condE_iff _).mpr hE), if_pos ((condX_iff _ _).mpr hX)]
    · have hXb : condX config.platform category = false := by
        rw [← Bool.not_eq_true, condX_iff]
        exact hX
      simp [if_pos hE, if_neg hX, if_pos ((condE_iff _).mpr hE), hXb]
  · have hEb : condE config.platform = false := by
      rw [← Bool.not_eq_true, condE_iff]
      exact hE
    by_cases hX : resolveExample category ≠ [] ∧
        10 * (costAfterE config.platform + estimateTokens (resolveExample category)) <
          9 * getPlatformLimit config.platform
    · simp [if_neg hE, if_pos hX, hEb, if_pos ((condX_iff _ _).mpr hX)]
    · have hXb : condX config.platform category = false := by
        rw [← Bool.not_eq_true, condX_iff]
        exact hX
      simp [if_neg hE, if_neg hX, hEb, hXb]

/-! ## Claim C4 — generate returns the pre-transform assembly -/

/-- C4: the public `generate` operation returns exactly the pre-transform assembly
(core, optionally a blank-line separator and the extended fragment, optionally a
separator and the examples fragment); the platform optimizer's transform and
truncation never touch the result, and the assembly-stage warnings are empty. -/
theorem C4_generate_pretransform (config : PromptGeneratorConfig) (category : List Char) :
    (generate config category).systemPrompt =
      (assembleAdaptivePrompt config category).optimizedPrompt ∧
    (generate config category).systemPrompt =
      corePromptS ++
        (if condE config.platform then nlnl ++ resolveExtended config.platform else []) ++
        (if condX config.platform category then nlnl ++ resolveExample category else []) ∧
    (assembleAdaptivePrompt config category).warnings = [] := by
  refine ⟨rfl, ?_, ?_⟩
  · show (assembleAdaptivePrompt config category).optimizedPrompt = _
    rw [assemble_spec]
  · rw [assemble_spec]

/-! ## Claim C5 — fallback for unknown destinations -/

/-- C5 (amended): for every destination identifier known to neither the profile
registry nor the fragment library (anything other than `cursor`, `claude`, `ollama`,
`universal`, and `copilot`), the assembly result is identical to the one for the
default destination `universal`.  (The unamended claim fails for `copilot`, which has
no registry profile but selects its own extended fragment: see the counterexample.) -/
theorem C5_unknown_destination (p category complexity language : List Char)
    (rules : List (List Char))
    (h1 : p ≠ cursorKey) (h2 : p ≠ claudeKey) (h3 : p ≠ ollamaKey) (h4 : p ≠ universalKey)
    (h5 : p ≠ copilotKey) :
    assembleAdaptivePrompt ⟨p, complexity, language, rules⟩ category =
      assembleAdaptivePrompt ⟨universalKey, complexity, language, rules⟩ category := by
  rw [assemble_spec, assemble_spec]
  have hext : resolveExtended p = resolveExtended universalKey := by
    rw [resolveExtended_cases, resolveExtended_cases]
    rw [if_neg h1, if_neg h2, if_neg h5, if_neg (by decide : ¬(universalKey = cursorKey)),
      if_neg (by decide : ¬(universalKey = claudeKey)),
      if_neg (by decide : ¬(universalKey = copilotKey))]
  have hX : condX p category = condX universalKey category := by
    rw [condX_eq, condX_eq]
  simp only [condE_true, if_true, hext, hX]

/-- C5 witness: the unknown identifier `foo` assembles identically to `universal`. -/
theorem C5_unknown_destination_witness :
    ("foo").data ≠ cursorKey ∧ ("foo").data ≠ copilotKey ∧
      assembleAdaptivePrompt ⟨("foo").data, [], [], []⟩ reactKey =
        assembleAdaptivePrompt ⟨universalKey, [], [], []⟩ reactKey :=
  ⟨by decide, by decide,
    C5_unknown_destination (("foo").data) reactKey [] [] [] (by decide) (by decide)
      (by decide) (by decide) (by decide)⟩

/-- C5 counterexample to the unamended claim: `copilot` is unknown to the profile
registry, yet its assembled document differs from the default destination's (it pulls
the copilot extended fragment, 416 characters, instead of cursor's 621). -/
theorem C5_unknown_destination_cx :
    platformLimits.lookup copilotKey = none ∧
    (assembleAdaptivePrompt ⟨copilotKey, [], [], []⟩ reactKey).optimizedPrompt.length = 2667 ∧
    (assembleAdaptivePrompt ⟨universalKey, [], [], []⟩ reactKey).optimizedPrompt.length =
      2872 := by
  refine ⟨by decide, ?_, ?_⟩
  · have hdoc : (assembleAdaptivePrompt ⟨copilotKey, [], [], []⟩ reactKey).optimizedPrompt =
        corePromptS ++ (nlnl ++ extCopilotS) ++ (nlnl ++ exReactS) := by
      rw [assemble_spec]
      simp only [condE_true, if_true, condX_eq]
      rw [resolveExtended_cases, if_neg (by decide : ¬(copilotKey = cursorKey)),
        if_neg (by decide : ¬(copilotKey = claudeKey)), if_pos rfl]
      rw [resolveExample_cases, if_pos rfl]
      simp only [show (exReactS.isEmpty = false) from rfl, Bool.not_false, if_true]
    rw [hdoc]
    simp only [List.length_append]
    decide
  · have hdoc : (assembleAdaptivePrompt ⟨universalKey, [], [], []⟩ reactKey).optimizedPrompt =
        corePromptS ++ (nlnl ++ extCursorS) ++ (nlnl ++ exReactS) := by
      rw [assemble_spec]
      simp only [condE_true, if_true, condX_eq]
      rw [resolveExtended_cases, if_neg (by decide : ¬(universalKey = cursorKey)),
        if_neg (by decide : ¬(universalKey = claudeKey)),
        if_neg (by decide : ¬(universalKey = copilotKey))]
      rw [resolveExample_cases, if_pos rfl]
      simp only [show (exReactS.isEmpty = false) from rfl, Bool.not_false, if_true]
    rw [hdoc]
    simp only [List.length_append]
    decide

/-! ## Claim C6 — core first, core substring, labels only on success -/

/-- C6: the first applied-step label is always `core`, the core fragment is a
substring of the pre-transform assembly, and the `extended` / `examples` labels occur
only when their respective inclusion checks succeeded. -/
theorem C6_core_first (config : PromptGeneratorConfig) (category : List Char) :
    (assembleAdaptivePrompt config category).appliedOptimizations.head? =
      some (("core").data) ∧
    containsSubB corePromptS (assembleAdaptivePrompt config category).optimizedPrompt = true ∧
    ((("extended").data ∈ (assembleAdaptivePrompt config category).appliedOptimizations) →
      condE config.platform = true) ∧
    ((("examples").data ∈ (assembleAdaptivePrompt config category).appliedOptimizations) →
      condX config.platform category = true) := by
  rw [assemble_spec]
  refine ⟨?_, ?_, ?_, ?_⟩
  · by_cases hE : condE config.platform = true <;>
      by_cases hX : condX config.platform category = true <;>
      simp [hE, hX]
  · exact containsSubB_append_self corePromptS _ _
  · intro hmem
    by_cases hE : condE config.platform = true
    · exact hE
    · rw [Bool.not_eq_true] at hE
      rw [hE] at hmem
      by_cases hX : condX config.platform category = true
      · rw [hX] at hmem
        simp at hmem
      · rw [Bool.not_eq_true] at hX
        rw [hX] at hmem
        simp at hmem
  · intro hmem
    by_cases hX : condX config.platform category = true
    · exact hX
    · rw [Bool.not_eq_true] at hX
      rw [hX] at hmem
      by_cases hE : condE config.platform = true
      · rw [hE] at hmem
        simp at hmem
      · rw [Bool.not_eq_true] at hE
        rw [hE] at hmem
        simp at hmem

/-- C6 witness: for the `cursor` destination and `react` category both inclusion
checks succeed, discharged through the claim theorem at that concrete input. -/
theorem C6_core_first_witness :
    condE cursorKey = true ∧ condX cursorKey reactKey = true :=
  ⟨(C6_core_first ⟨cursorKey, [], [], []⟩ reactKey).2.2.1 (by decide),
   (C6_core_first ⟨cursorKey, [], [], []⟩ reactKey).2.2.2 (by decide)⟩

/-! ## Claim C8 — fragment resolution never fails -/

/-- C8: extended-fragment lookup returns the fragment stored under the destination
key, else the designated default destination's (`cursor`) fragment, else empty;
example lookup returns the fragment stored under the category key, else empty, with
no further fallback.  Absence is an empty result, never an error (the resolvers are
total functions). -/
theorem C8_fragment_resolution (dest cat : List Char) :
    resolveExtended dest =
      (match extendedPrompts.lookup dest with
       | some f => f
       | none =>
         match extendedPrompts.lookup cursorKey with
         | some f => f
         | none => []) ∧
    resolveExample cat =
      (match examplesMap.lookup cat with
       | some f => f
       | none => []) := by
  constructor
  · rw [resolveExtended_cases, lookupExt_cases]
    split_ifs <;> rfl
  · rw [resolveExample_cases, lookupEx_cases]
    split_ifs <;> rfl

/-! ## Claim C10 — header injection preserves the original document -/

/-- C10 (amended): when neither the prompt nor the preamble contains an active
`$`-substitution pattern (`$$`, `$&`, backquote/quote variants — the patterns active
for a string search value, whose captures list is empty), the header-insertion helper
inserts the preamble at exactly one position of the unchanged prompt — after the
matched top-level header, or at position 0 when no header matches — so the output
length is the sum of the two lengths.  (The unamended claim fails when the matched
header contains such a pattern: see the counterexample.) -/
theorem C10_header_insertion (prompt content : List Char)
    (hp : noDollarPairB prompt = true) (hc : noDollarPairB content = true) :
    ∃ h, h ≤ prompt.length ∧
      insertAfterHeader prompt content = prompt.take h ++ content ++ prompt.drop h ∧
      (insertAfterHeader prompt content).length = prompt.length + content.length := by
  rcases insertAfterHeader_decomp prompt content hp hc with ⟨h, hle, heq⟩
  refine ⟨h, hle, heq, ?_⟩
  rw [heq]
  simp only [List.length_append, List.length_take, List.length_drop]
  omega

/-- C10 witness: a concrete header-bearing prompt and preamble. -/
theorem C10_header_insertion_witness :
    noDollarPairB (("# T\n\npara\n\nrest").data) = true ∧
    noDollarPairB (("XY").data) = true ∧
    (∃ h, h ≤ (("# T\n\npara\n\nrest").data).length ∧
      insertAfterHeader (("# T\n\npara\n\nrest").data) (("XY").data) =
        (("# T\n\npara\n\nrest").data).take h ++ ("XY").data ++
          (("# T\n\npara\n\nrest").data).drop h ∧
      (insertAfterHeader (("# T\n\npara\n\nrest").data) (("XY").data)).length =
        (("# T\n\npara\n\nrest").data).length + (("XY").data).length) :=
  ⟨by decide, by decide,
    C10_header_insertion (("# T\n\npara\n\nrest").data) (("XY").data) (by decide) (by decide)⟩

/-- C10 counterexample to the unamended claim: a `$&` inside the matched header is
substituted by the matched text itself (JS `String.replace` replacement semantics),
duplicating the header, so the output length is not the sum of the input lengths. -/
theorem C10_header_insertion_cx :
    (insertAfterHeader (("# T\n\na$&b\n\nrest").data) (("CC").data)).length ≠
      (("# T\n\na$&b\n\nrest").data).length + (("CC").data).length := by
  decide
/-! ## Claim C1 — end-to-end ceiling enforcement -/

/-- C1 (amended): the document returned by `generate` is the pre-transform assembly —
the Transformer and Truncator are never invoked on the generate path — and it
nevertheless never exceeds the destination profile's character ceiling, because the
assembler's own thresholds and the built-in fragment sizes keep every assembly at
most 2872 characters while every ceiling is at least 8000.  (The unamended claim,
that the returned document is the Transformer's output with the Truncator as safety
net, fails: see the counterexample.) -/
theorem C1_generate_under_ceiling (config : PromptGeneratorConfig) (category : List Char) :
    (generate config category).systemPrompt =
      (assembleAdaptivePrompt config category).optimizedPrompt ∧
    (generate config category).systemPrompt.length ≤ getPlatformLimit config.platform := by
  refine ⟨rfl, ?_⟩
  show (assembleAdaptivePrompt config category).optimizedPrompt.length ≤ _
  rw [assemble_spec]
  have h1 : corePromptS.length = 1605 := by decide
  have h2 := resolveExtended_length_le config.platform
  have h3 := resolveExample_length_le category
  have h4 := getPlatformLimit_ge config.platform
  have h5 : nlnl.length = 2 := rfl
  simp only [List.length_append]
  split_ifs <;> simp only [List.length_append, List.length_nil, h5] <;> omega

/-- C1 counterexample to the unamended claim: for the `claude` destination and `node`
category, the document `generate` returns is not the platform optimizer's output on
the assembly (the optimizer would insert the Claude preamble and append the worked
examples section, growing the document from 2397 to 3474 characters; `generate` skips
it entirely). -/
theorem C1_generate_under_ceiling_cx :
    (generate ⟨claudeKey, [], [], []⟩ nodeKey).systemPrompt ≠
      (optimize claudeKey
        ((assembleAdaptivePrompt ⟨claudeKey, [], [], []⟩ nodeKey).optimizedPrompt)).optimizedPrompt := by
  have hasm : (assembleAdaptivePrompt ⟨claudeKey, [], [], []⟩ nodeKey).optimizedPrompt =
      corePromptS ++ (nlnl ++ extClaudeS) ++ (nlnl ++ exNodeS) := by
    rw [assemble_spec]
    simp only [condE_true, if_true, condX_eq]
    rw [resolveExtended_cases, if_neg (by decide : ¬(claudeKey = cursorKey)), if_pos rfl]
    rw [resolveExample_cases, if_neg (by decide : ¬(nodeKey = reactKey)), if_pos rfl]
    simp only [show (exNodeS.isEmpty = false) from rfl, Bool.not_false, if_true]
  set asm := (assembleAdaptivePrompt ⟨claudeKey, [], [], []⟩ nodeKey).optimizedPrompt with hasmdef
  have hasmlen : asm.length = 2397 := by
    rw [hasm]
    simp only [List.length_append]
    decide
  have hfree : ∀ c ∈ asm, c ≠ '$' ∧ c ≠ Char.ofNat 0x11F := by
    rw [hasm]
    refine forall_mem_of_all (p := fun c => !(c == '$') && !(c == Char.ofNat 0x11F)) ?_ ?_
    · intro c hc
      simp only [Bool.and_eq_true, Bool.not_eq_true', beq_eq_false_iff_ne, ne_eq] at hc
      exact hc
    · simp only [List.all_append, Bool.and_eq_true]
      exact ⟨⟨by decide, by decide, by decide⟩, by decide, by decide⟩
  rcases insertAfterHeader_decomp asm claudePreambleS
      (noDollarPairB_of_dollarFree (fun c hc => (hfree c hc).1))
      (by decide : noDollarPairB claudePreambleS = true) with ⟨h, hle, hY⟩
  have hYlen : (insertAfterHeader asm claudePreambleS).length = 2692 := by
    rw [hY]
    simp only [List.length_append, List.length_take, List.length_drop]
    have hp : claudePreambleS.length = 295 := by decide
    omega
  have hpre0x11F : ∀ c ∈ claudePreambleS, c ≠ Char.ofNat 0x11F :=
    forall_mem_of_all (p := fun c => !(c == Char.ofNat 0x11F))
      (fun c hc => by simpa using hc) (by decide)
  have hYfree : ∀ c ∈ insertAfterHeader asm claudePreambleS, c ≠ Char.ofNat 0x11F := by
    rw [hY]
    intro c hc
    rcases List.mem_append.mp hc with hc1 | hc6
    · rcases List.mem_append.mp hc1 with hc3 | hc4
      · exact (hfree c (List.mem_of_mem_take hc3)).2
      · exact hpre0x11F c hc4
    · exact (hfree c (List.mem_of_mem_drop hc6)).2
  have henh : enhanceStructuredSections (insertAfterHeader asm claudePreambleS) =
      insertAfterHeader asm claudePreambleS := by
    unfold enhanceStructuredSections
    have e1 : replaceAll objPat1S objRepl1S (insertAfterHeader asm claudePreambleS) =
        insertAfterHeader asm claudePreambleS :=
      replaceAll_not_occ (q := Char.ofNat 0x11F) (by decide) hYfree
    rw [e1]
    simp only [beq_self_eq_true, if_true]
    exact replaceAll_not_occ (q := Char.ofNat 0x11F) (by decide) hYfree
  have hopt : optimize claudeKey asm = optimizeForClaude asm := by
    simp [optimize, show (claudeKey == cursorKey) = false from rfl]
  have hp1 : (optimizeForClaude asm).optimizedPrompt =
      insertAfterHeader asm claudePreambleS ++ exampleSectionS := by
    simp only [optimizeForClaude, addDetailedExamples, henh]
    have hlen2 : (insertAfterHeader asm claudePreambleS ++ exampleSectionS).length = 3474 := by
      simp only [List.length_append, hYlen]
      decide
    have hcond : ¬ (claudeLimits.maxCharacters.getD 0 <
        (insertAfterHeader asm claudePreambleS ++ exampleSectionS).length) := by
      rw [hlen2]
      decide
    rw [if_neg hcond]
  intro heq
  have hgen : (generate ⟨claudeKey, [], [], []⟩ nodeKey).systemPrompt = asm := rfl
  rw [hgen, hopt, hp1] at heq
  have hl := congrArg List.length heq
  rw [hasmlen, List.length_append, hYlen] at hl
  have hex : exampleSectionS.length = 782 := by decide
  omega
/-! ## Claim C7 — warning correlation -/

theorem digitChar10_isDigit (k : Nat) : (digitChar10 k).isDigit = true := by
  unfold digitChar10
  have h : k % 10 < 10 := Nat.mod_lt _ (by omega)
  interval_cases h2 : k % 10 <;> decide

theorem toDecF_digits : ∀ fuel n, ∀ c ∈ toDecF fuel n, c.isDigit = true := by
  intro fuel
  induction fuel with
  | zero => intro n c hc; simp [toDecF] at hc
  | succ f ih =>
    intro n c hc
    by_cases hn : n < 10
    · simp only [toDecF, if_pos hn, List.mem_singleton] at hc
      rw [hc]
      exact digitChar10_isDigit n
    · simp only [toDecF, if_neg hn, List.mem_append, List.mem_singleton] at hc
      rcases hc with hc | hc
      · exact ih (n / 10) c hc
      · rw [hc]
        exact digitChar10_isDigit (n % 10)

theorem toDec_digits (n : Nat) : ∀ c ∈ toDec n, c.isDigit = true :=
  toDecF_digits (n + 1) n

theorem toDecF_succ_ne_nil (f n : Nat) : toDecF (f + 1) n ≠ [] := by
  by_cases hn : n < 10 <;> simp [toDecF, hn]

theorem toDec_ne_nil (n : Nat) : toDec n ≠ [] := toDecF_succ_ne_nil n n

/-- The Claude over-limit warning never mentions "truncated": the pattern contains no
digit, the interpolated length is a nonempty digit block, and the fixed text on
either side does not contain the pattern. -/
theorem claude_warning_no_trunc (n : Nat) :
    containsSubB truncatedWordS (claudeWarnPreS ++ (toDec n ++ claudeWarnPostS)) = false :=
  containsSubB_around_digits (by decide) (by decide) (toDec_ne_nil n) (toDec_digits n)
    (by decide) (by decide)

/-- C7 (amended): for every prompt and every destination profile, the optimization
result's warnings contain a string mentioning "truncated" if and only if a
truncation procedure (character-ceiling or line-limit) was actually invoked.  The
profile that only warns without truncating (`claude`) phrases its warning without the
word "truncated".  (The unamended claim's stronger reading — that a "truncated"
warning coincides with the returned document being an actual shortening of the
pre-truncation document — fails for the line-limit truncation, which can leave the
total length unchanged: see the counterexample.) -/
theorem C7_truncated_warning_iff (platform prompt : List Char) :
    mentionsTruncated ((optimize platform prompt).warnings) =
      truncationInvokedB platform prompt := by
  unfold optimize truncationInvokedB preTruncDoc
  by_cases h1 : (platform == cursorKey) = true
  · simp only [h1, if_true]
    by_cases hc : 15000 < (enhanceCodeSections (insertAfterHeader prompt cursorPreambleS)).length
    · simp [optimizeForCursor, mentionsTruncated, hc,
        show cursorLimits.maxCharacters.getD 0 = 15000 from rfl,
        show containsSubB truncatedWordS cursorTruncWarnS = true from by decide]
    · simp [optimizeForCursor, mentionsTruncated, hc,
        show cursorLimits.maxCharacters.getD 0 = 15000 from rfl]
  · simp only [h1, Bool.false_eq_true, if_false]
    by_cases h2 : (platform == claudeKey) = true
    · simp only [h2, if_true]
      by_cases hc : 20000 < (addDetailedExamples (enhanceStructuredSections
          (insertAfterHeader prompt claudePreambleS))).length
      · simp [optimizeForClaude, mentionsTruncated, hc, claude_warning_no_trunc,
          show claudeLimits.maxCharacters.getD 0 = 20000 from rfl]
      · simp [optimizeForClaude, mentionsTruncated, hc,
          show claudeLimits.maxCharacters.getD 0 = 20000 from rfl]
    · simp only [h2, Bool.false_eq_true, if_false]
      by_cases h3 : (platform == ollamaKey) = true
      · simp only [h3, if_true]
        by_cases hchar : 8000 <
            (simplifyStructure (removeEmojis (insertAfterHeader prompt ollamaPreambleS))).length
        · by_cases hline : 300 < (splitNl (truncatePrompt
              (simplifyStructure (removeEmojis (insertAfterHeader prompt ollamaPreambleS)))
              8000)).length
          · simp [optimizeForOllama, mentionsTruncated, hchar, hline,
              show ollamaLimits.supportsEmojis = false from rfl,
              show ollamaLimits.maxCharacters.getD 0 = 8000 from rfl,
              show ollamaLimits.maxLines = some 300 from rfl,
              show ollamaLimits.maxLines.getD 0 = 300 from rfl,
              show containsSubB truncatedWordS ollamaCharWarnS = true from by decide,
              show containsSubB truncatedWordS ollamaLineWarnS = true from by decide]
          · simp [optimizeForOllama, mentionsTruncated, hchar, hline,
              show ollamaLimits.supportsEmojis = false from rfl,
              show ollamaLimits.maxCharacters.getD 0 = 8000 from rfl,
              show ollamaLimits.maxLines = some 300 from rfl,
              show ollamaLimits.maxLines.getD 0 = 300 from rfl,
              show containsSubB truncatedWordS ollamaCharWarnS = true from by decide]
        · by_cases hline : 300 < (splitNl
              (simplifyStructure (removeEmojis (insertAfterHeader prompt ollamaPreambleS)))).length
          · simp [optimizeForOllama, mentionsTruncated, hchar, hline,
              show ollamaLimits.supportsEmojis = false from rfl,
              show ollamaLimits.maxCharacters.getD 0 = 8000 from rfl,
              show ollamaLimits.maxLines = some 300 from rfl,
              show ollamaLimits.maxLines.getD 0 = 300 from rfl,
              show containsSubB truncatedWordS ollamaLineWarnS = true from by decide]
          · simp [optimizeForOllama, mentionsTruncated, hchar, hline,
              show ollamaLimits.supportsEmojis = false from rfl,
              show ollamaLimits.maxCharacters.getD 0 = 8000 from rfl,
              show ollamaLimits.maxLines = some 300 from rfl,
              show ollamaLimits.maxLines.getD 0 = 300 from rfl]
      · simp only [h3, Bool.false_eq_true, if_false]
        by_cases hc : 12000 < (insertAfterHeader prompt universalPreambleS).length
        · simp [optimizeForUniversal, mentionsTruncated, hc,
            show universalLimits.maxCharacters.getD 0 = 12000 from rfl,
            show containsSubB truncatedWordS univTruncWarnS = true from by decide]
        · simp [optimizeForUniversal, mentionsTruncated, hc,
            show universalLimits.maxCharacters.getD 0 = 12000 from rfl]

/-- C7 counterexample to the unamended reading: a 291-line document pushed to 301 lines
by the Ollama preamble triggers line truncation (a "truncated" warning is emitted),
yet the dropped trailing lines weigh exactly as much as the inserted marker lines, so
the final document's length equals the pre-truncation length — the warning is
truthful about the procedure but not witnessed by any length decrease. -/
theorem C7_truncated_warning_iff_cx :
    mentionsTruncated ((optimize ollamaKey c7xS).warnings) = true ∧
      (optimize ollamaKey c7xS).optimizedPrompt.length =
        (preTruncDoc ollamaKey c7xS).length := by
  constructor
  · decide
  · decide
/-! ## Claim C9 — structural simplification on the line grammar -/

theorem h3Pat_cons : h3Pat = '#' :: '#' :: '#' :: [' '] := rfl

theorem h4Pat_cons : h4Pat = '#' :: '#' :: '#' :: '#' :: [' '] := rfl

theorem h2Rep_cons : h2Rep = '#' :: '#' :: [' '] := rfl

theorem cbPat_cons : cbPat = '-' :: ' ' :: '[' :: ' ' :: [']'] := rfl

theorem h3Pat_ne : h3Pat ≠ [] := by decide

theorem h4Pat_ne : h4Pat ≠ [] := by decide

theorem cbPat_ne : cbPat ≠ [] := by decide

theorem h3Pat_nonl : '\n' ∉ h3Pat := by decide

theorem h4Pat_nonl : '\n' ∉ h4Pat := by decide

theorem cbPat_nonl : '\n' ∉ cbPat := by decide

theorem hash_mem_h3Pat : '#' ∈ h3Pat := by decide

theorem hash_mem_h4Pat : '#' ∈ h4Pat := by decide

theorem lbrack_mem_cbPat : '[' ∈ cbPat := by decide

/-- A global replace whose nonempty pattern heads the subject rewrites it. -/
theorem replaceAll_match_head {p : List Char} (hp : p ≠ []) (r s : List Char) :
    replaceAll p r (p ++ s) = r ++ replaceAll p r s := by
  rcases p with _ | ⟨a, as⟩
  · exact absurd rfl hp
  · exact replaceAll_match_self a as r s

theorem boldReplace_id {x : List Char} (hx : ∀ c ∈ x, c ≠ '*') : boldReplace x = x := by
  have h := boldReplace_skip_run hx []
  simpa [boldReplace_nil] using h

theorem cleanTB_props {t : List Char} (h : cleanTB t = true) :
    ∀ c ∈ t, c ≠ '#' ∧ c ≠ '*' ∧ c ≠ '[' ∧ c ≠ '\n' := by
  have h2 : t.all (fun c => !(c == '#') && !(c == '*') && !(c == '[') && !(c == '\n')) =
      true := h
  refine forall_mem_of_all ?_ h2
  intro c hc
  simp only [Bool.and_eq_true, Bool.not_eq_true', beq_eq_false_iff_ne] at hc
  exact ⟨hc.1.1.1, hc.1.1.2, hc.1.2, hc.2⟩

theorem isPre_h4_two_hash (t : List Char) : isPre h4Pat ('#' :: '#' :: ' ' :: t) = false := by
  rw [h4Pat_cons]
  simp [isPre, show (('#' : Char) == ' ') = false from rfl]

theorem isPre_h4_one_hash (t : List Char) : isPre h4Pat ('#' :: ' ' :: t) = false := by
  rw [h4Pat_cons]
  simp [isPre, show (('#' : Char) == ' ') = false from rfl]

theorem isPre_h4_space (t : List Char) : isPre h4Pat (' ' :: t) = false := by
  rw [h4Pat_cons]
  simp [isPre, show (('#' : Char) == ' ') = false from rfl]

theorem isPre_h4_three_hash (t : List Char) :
    isPre h4Pat ('#' :: '#' :: '#' :: ' ' :: t) = false := by
  rw [h4Pat_cons]
  simp [isPre, show (('#' : Char) == ' ') = false from rfl]

theorem isPre_h3_four_hash (t : List Char) :
    isPre h3Pat ('#' :: '#' :: '#' :: '#' :: ' ' :: t) = false := by
  rw [h3Pat_cons]
  simp [isPre, show ((' ' : Char) == '#') = false from rfl]

/-- The second demotion pass is the identity on a demoted level-3 heading line. -/
theorem P2_id_two_hash {t : List Char} (ht : ∀ c ∈ t, c ≠ '#') :
    replaceAll h4Pat h3Pat ('#' :: '#' :: ' ' :: t) = '#' :: '#' :: ' ' :: t := by
  rw [replaceAll_skip_cons h3Pat _ (isPre_h4_two_hash t),
    replaceAll_skip_cons h3Pat _ (isPre_h4_one_hash t),
    replaceAll_skip_cons h3Pat _ (isPre_h4_space t),
    replaceAll_not_occ hash_mem_h4Pat ht]

/-- The second demotion pass is the identity on a demoted level-4 heading line. -/
theorem P2_id_three_hash {t : List Char} (ht : ∀ c ∈ t, c ≠ '#') :
    replaceAll h4Pat h3Pat ('#' :: '#' :: '#' :: ' ' :: t) = '#' :: '#' :: '#' :: ' ' :: t := by
  rw [replaceAll_skip_cons h3Pat _ (isPre_h4_three_hash t), P2_id_two_hash ht]

/-- The first demotion pass on a level-4 heading line: the level-3 pattern matches at
offset one, so the line already becomes a level-3 heading here. -/
theorem P1_h4line {t : List Char} (ht : ∀ c ∈ t, c ≠ '#') :
    replaceAll h3Pat h2Rep ('#' :: '#' :: '#' :: '#' :: ' ' :: t) =
      '#' :: '#' :: '#' :: ' ' :: t := by
  rw [replaceAll_skip_cons h2Rep _ (isPre_h3_four_hash t)]
  have e : ('#' :: '#' :: '#' :: ' ' :: t : List Char) = h3Pat ++ t := by
    simp [h3Pat_cons]
  rw [e, replaceAll_match_head h3Pat_ne, replaceAll_not_occ hash_mem_h3Pat ht]
  simp [h2Rep_cons, h3Pat_cons]

/-- The two demotion passes on one rendered line. -/
theorem stage12_line (sl : SL) (h : cleanSLB sl = true) :
    replaceAll h4Pat h3Pat (replaceAll h3Pat h2Rep (renderSL sl)) = demotedSL sl := by
  cases sl with
  | h3 t =>
    simp only [cleanSLB] at h
    have ht := cleanTB_props h
    have ht1 : ∀ c ∈ t, c ≠ '#' := fun c hc => (ht c hc).1
    simp only [renderSL, demotedSL]
    rw [replaceAll_match_head h3Pat_ne, replaceAll_not_occ hash_mem_h3Pat ht1, h2Rep_cons]
    exact P2_id_two_hash ht1
  | h4 t =>
    simp only [cleanSLB] at h
    have ht := cleanTB_props h
    have ht1 : ∀ c ∈ t, c ≠ '#' := fun c hc => (ht c hc).1
    simp only [renderSL, demotedSL]
    have e : h4Pat ++ t = '#' :: '#' :: '#' :: '#' :: ' ' :: t := by simp [h4Pat_cons]
    rw [e, P1_h4line ht1]
    exact P2_id_three_hash ht1
  | bold t =>
    simp only [cleanSLB, Bool.and_eq_true] at h
    have ht := cleanTB_props h.2
    have hline : ∀ c ∈ ("**").data ++ t ++ ("**").data, c ≠ '#' := by
      intro c hc
      rcases List.mem_append.mp hc with hc1 | hc2
      · rcases List.mem_append.mp hc1 with hc3 | hc4
        · exact (by decide : ∀ c ∈ (("**").data : List Char), c ≠ '#') c hc3
        · exact (ht c hc4).1
      · exact (by decide : ∀ c ∈ (("**").data : List Char), c ≠ '#') c hc2
    simp only [renderSL, demotedSL]
    rw [replaceAll_not_occ hash_mem_h3Pat hline, replaceAll_not_occ hash_mem_h4Pat hline]
  | checkbox t =>
    simp only [cleanSLB] at h
    have ht := cleanTB_props h
    have hline : ∀ c ∈ cbPat ++ t, c ≠ '#' := by
      intro c hc
      rcases List.mem_append.mp hc with hc1 | hc2
      · exact (by decide : ∀ c ∈ cbPat, c ≠ '#') c hc1
      · exact (ht c hc2).1
    simp only [renderSL, demotedSL]
    rw [replaceAll_not_occ hash_mem_h3Pat hline, replaceAll_not_occ hash_mem_h4Pat hline]
  | plain t =>
    simp only [cleanSLB] at h
    have ht := cleanTB_props h
    have ht1 : ∀ c ∈ t, c ≠ '#' := fun c hc => (ht c hc).1
    simp only [renderSL, demotedSL]
    rw [replaceAll_not_occ hash_mem_h3Pat ht1, replaceAll_not_occ hash_mem_h4Pat ht1]

/-- The bold pass on the final line of a document. -/
theorem stage3_line_last (sl : SL) (h : cleanSLB sl = true) :
    boldReplace (demotedSL sl) = boldedSL sl := by
  cases sl with
  | h3 t =>
    simp only [cleanSLB] at h
    have ht := cleanTB_props h
    simp only [demotedSL, boldedSL]
    refine boldReplace_id ?_
    intro c hc
    rcases List.mem_append.mp hc with hc1 | hc2
    · exact (by decide : ∀ c ∈ h2Rep, c ≠ '*') c hc1
    · exact (ht c hc2).2.1
  | h4 t =>
    simp only [cleanSLB] at h
    have ht := cleanTB_props h
    simp only [demotedSL, boldedSL]
    refine boldReplace_id ?_
    intro c hc
    rcases List.mem_append.mp hc with hc1 | hc2
    · exact (by decide : ∀ c ∈ h3Pat, c ≠ '*') c hc1
    · exact (ht c hc2).2.1
  | bold t =>
    simp only [cleanSLB, Bool.and_eq_true, Bool.not_eq_true'] at h
    have htne : t ≠ [] := by
      intro h0
      rw [h0] at h
      simp at h
    have ht := cleanTB_props h.2
    have hstar : ∀ c ∈ t, c ≠ '*' := fun c hc => (ht c hc).2.1
    simp only [demotedSL, boldedSL]
    have e : (("**").data ++ t ++ ("**").data : List Char) =
        '*' :: '*' :: (t ++ '*' :: '*' :: []) := by
      simp [show (("**").data : List Char) = ['*', '*'] from rfl, List.append_assoc]
    rw [e, boldReplace_unit htne hstar [], boldReplace_nil]
  | checkbox t =>
    simp only [cleanSLB] at h
    have ht := cleanTB_props h
    simp only [demotedSL, boldedSL]
    refine boldReplace_id ?_
    intro c hc
    rcases List.mem_append.mp hc with hc1 | hc2
    · exact (by decide : ∀ c ∈ cbPat, c ≠ '*') c hc1
    · exact (ht c hc2).2.1
  | plain t =>
    simp only [cleanSLB] at h
    have ht := cleanTB_props h
    simp only [demotedSL, boldedSL]
    exact boldReplace_id (fun c hc => (ht c hc).2.1)

/-- The bold pass on a non-final line followed by a newline and the document rest. -/
theorem stage3_line_mid (sl : SL) (h : cleanSLB sl = true) (s : List Char) :
    boldReplace (demotedSL sl ++ '\n' :: s) = boldedSL sl ++ '\n' :: boldReplace s := by
  cases sl with
  | h3 t =>
    simp only [cleanSLB] at h
    have ht := cleanTB_props h
    simp only [demotedSL, boldedSL]
    have hx : ∀ c ∈ h2Rep ++ t, c ≠ '*' := by
      intro c hc
      rcases List.mem_append.mp hc with hc1 | hc2
      · exact (by decide : ∀ c ∈ h2Rep, c ≠ '*') c hc1
      · exact (ht c hc2).2.1
    rw [boldReplace_skip_run hx ('\n' :: s),
      boldReplace_cons_nostar (by decide : ('\n' : Char) ≠ '*')]
  | h4 t =>
    simp only [cleanSLB] at h
    have ht := cleanTB_props h
    simp only [demotedSL, boldedSL]
    have hx : ∀ c ∈ h3Pat ++ t, c ≠ '*' := by
      intro c hc
      rcases List.mem_append.mp hc with hc1 | hc2
      · exact (by decide : ∀ c ∈ h3Pat, c ≠ '*') c hc1
      · exact (ht c hc2).2.1
    rw [boldReplace_skip_run hx ('\n' :: s),
      boldReplace_cons_nostar (by decide : ('\n' : Char) ≠ '*')]
  | bold t =>
    simp only [cleanSLB, Bool.and_eq_true, Bool.not_eq_true'] at h
    have htne : t ≠ [] := by
      intro h0
      rw [h0] at h
      simp at h
    have ht := cleanTB_props h.2
    have hstar : ∀ c ∈ t, c ≠ '*' := fun c hc => (ht c hc).2.1
    simp only [demotedSL, boldedSL]
    have e : ((("**").data ++ t ++ ("**").data : List Char) ++ '\n' :: s) =
        '*' :: '*' :: (t ++ '*' :: '*' :: ('\n' :: s)) := by
      simp [show (("**").data : List Char) = ['*', '*'] from rfl, List.append_assoc]
    rw [e, boldReplace_unit htne hstar ('\n' :: s),
      boldReplace_cons_nostar (by decide : ('\n' : Char) ≠ '*')]
    simp [show ((":").data : List Char) = [':'] from rfl, List.append_assoc]
  | checkbox t =>
    simp only [cleanSLB] at h
    have ht := cleanTB_props h
    simp only [demotedSL, boldedSL]
    have hx : ∀ c ∈ cbPat ++ t, c ≠ '*' := by
      intro c hc
      rcases List.mem_append.mp hc with hc1 | hc2
      · exact (by decide : ∀ c ∈ cbPat, c ≠ '*') c hc1
      · exact (ht c hc2).2.1
    rw [boldReplace_skip_run hx ('\n' :: s),
      boldReplace_cons_nostar (by decide : ('\n' : Char) ≠ '*')]
  | plain t =>
    simp only [cleanSLB] at h
    have ht := cleanTB_props h
    simp only [demotedSL, boldedSL]
    rw [boldReplace_skip_run (fun c hc => (ht c hc).2.1) ('\n' :: s),
      boldReplace_cons_nostar (by decide : ('\n' : Char) ≠ '*')]

/-- The checkbox-collapse pass on one line. -/
theorem stage4_line (sl : SL) (h : cleanSLB sl = true) :
    replaceAll cbPat dashRep (boldedSL sl) = simplifiedSL sl := by
  cases sl with
  | h3 t =>
    simp only [cleanSLB] at h
    have ht := cleanTB_props h
    simp only [boldedSL, simplifiedSL]
    refine replaceAll_not_occ lbrack_mem_cbPat ?_
    intro c hc
    rcases List.mem_append.mp hc with hc1 | hc2
    · exact (by decide : ∀ c ∈ h2Rep, c ≠ '[') c hc1
    · exact (ht c hc2).2.2.1
  | h4 t =>
    simp only [cleanSLB] at h
    have ht := cleanTB_props h
    simp only [boldedSL, simplifiedSL]
    refine replaceAll_not_occ lbrack_mem_cbPat ?_
    intro c hc
    rcases List.mem_append.mp hc with hc1 | hc2
    · exact (by decide : ∀ c ∈ h3Pat, c ≠ '[') c hc1
    · exact (ht c hc2).2.2.1
  | bold t =>
    simp only [cleanSLB, Bool.and_eq_true] at h
    have ht := cleanTB_props h.2
    simp only [boldedSL, simplifiedSL]
    refine replaceAll_not_occ lbrack_mem_cbPat ?_
    intro c hc
    rcases List.mem_append.mp hc with hc1 | hc2
    · exact (ht c hc1).2.2.1
    · exact (by decide : ∀ c ∈ ((":").data : List Char), c ≠ '[') c hc2
  | checkbox t =>
    simp only [cleanSLB] at h
    have ht := cleanTB_props h
    simp only [boldedSL, simplifiedSL]
    rw [replaceAll_match_head cbPat_ne,
      replaceAll_not_occ lbrack_mem_cbPat (fun c hc => (ht c hc).2.2.1)]
  | plain t =>
    simp only [cleanSLB] at h
    have ht := cleanTB_props h
    simp only [boldedSL, simplifiedSL]
    exact replaceAll_not_occ lbrack_mem_cbPat (fun c hc => (ht c hc).2.2.1)

/-- The two demotion passes across a whole rendered document. -/
theorem stage12_doc :
    ∀ d : List SL, d.all cleanSLB = true →
      replaceAll h4Pat h3Pat (replaceAll h3Pat h2Rep (joinNl (d.map renderSL))) =
        joinNl (d.map demotedSL) := by
  intro d
  induction d with
  | nil => intro _; rfl
  | cons sl rest ih =>
    intro h
    rw [List.all_cons, Bool.and_eq_true] at h
    cases rest with
    | nil => exact stage12_line sl h.1
    | cons sl2 rest2 =>
      have e1 : joinNl ((sl :: sl2 :: rest2).map renderSL) =
          renderSL sl ++ '\n' :: joinNl ((sl2 :: rest2).map renderSL) := rfl
      have e2 : joinNl ((sl :: sl2 :: rest2).map demotedSL) =
          demotedSL sl ++ '\n' :: joinNl ((sl2 :: rest2).map demotedSL) := rfl
      rw [e1, e2, replaceAll_append_nl h3Pat_ne h3Pat_nonl h2Rep,
        replaceAll_append_nl h4Pat_ne h4Pat_nonl h3Pat, stage12_line sl h.1, ih h.2]

/-- The bold pass across a whole demoted document. -/
theorem stage3_doc :
    ∀ d : List SL, d.all cleanSLB = true →
      boldReplace (joinNl (d.map demotedSL)) = joinNl (d.map boldedSL) := by
  intro d
  induction d with
  | nil => intro _; rfl
  | cons sl rest ih =>
    intro h
    rw [List.all_cons, Bool.and_eq_true] at h
    cases rest with
    | nil => exact stage3_line_last sl h.1
    | cons sl2 rest2 =>
      have e1 : joinNl ((sl :: sl2 :: rest2).map demotedSL) =
          demotedSL sl ++ '\n' :: joinNl ((sl2 :: rest2).map demotedSL) := rfl
      have e2 : joinNl ((sl :: sl2 :: rest2).map boldedSL) =
          boldedSL sl ++ '\n' :: joinNl ((sl2 :: rest2).map boldedSL) := rfl
      rw [e1, e2, stage3_line_mid sl h.1, ih h.2]

/-- The checkbox pass across a whole document. -/
theorem stage4_doc :
    ∀ d : List SL, d.all cleanSLB = true →
      replaceAll cbPat dashRep (joinNl (d.map boldedSL)) = joinNl (d.map simplifiedSL) := by
  intro d
  induction d with
  | nil => intro _; rfl
  | cons sl rest ih =>
    intro h
    rw [List.all_cons, Bool.and_eq_true] at h
    cases rest with
    | nil => exact stage4_line sl h.1
    | cons sl2 rest2 =>
      have e1 : joinNl ((sl :: sl2 :: rest2).map boldedSL) =
          boldedSL sl ++ '\n' :: joinNl ((sl2 :: rest2).map boldedSL) := rfl
      have e2 : joinNl ((sl :: sl2 :: rest2).map simplifiedSL) =
          simplifiedSL sl ++ '\n' :: joinNl ((sl2 :: rest2).map simplifiedSL) := rfl
      rw [e1, e2, replaceAll_append_nl cbPat_ne cbPat_nonl dashRep, stage4_line sl h.1, ih h.2]

/-- C9: on every document of well-formed structured lines — each line a heading,
bold phrase, checkbox item, or plain text over metacharacter-free content — the
structural simplification demotes every level-3 heading to level-2 and every level-4
heading to level-3 (one level each), rewrites every bold-wrapped phrase to the phrase
followed by a colon, and collapses every checkbox marker to a plain bullet, line by
line. -/
theorem C9_structural_simplification (d : List SL) (h : d.all cleanSLB = true) :
    simplifyStructure (renderDoc d) = joinNl (d.map simplifiedSL) := by
  show replaceAll cbPat dashRep
      (boldReplace (replaceAll h4Pat h3Pat (replaceAll h3Pat h2Rep
        (joinNl (d.map renderSL))))) = joinNl (d.map simplifiedSL)
  rw [stage12_doc d h, stage3_doc d h, stage4_doc d h]

/-- C9 witness: a concrete five-line document exercising every construct. -/
theorem C9_structural_simplification_witness :
    ([SL.h3 ("Goals").data, SL.checkbox (" item").data, SL.bold ("Note").data,
      SL.h4 ("Sub").data, SL.plain ("text").data].all cleanSLB = true) ∧
      simplifyStructure (renderDoc
        [SL.h3 ("Goals").data, SL.checkbox (" item").data, SL.bold ("Note").data,
         SL.h4 ("Sub").data, SL.plain ("text").data]) =
        joinNl ([SL.h3 ("Goals").data, SL.checkbox (" item").data, SL.bold ("Note").data,
          SL.h4 ("Sub").data, SL.plain ("text").data].map simplifiedSL) :=
  ⟨by decide,
   C9_structural_simplification
     [SL.h3 ("Goals").data, SL.checkbox (" item").data, SL.bold ("Note").data,
      SL.h4 ("Sub").data, SL.plain ("text").data] (by decide)⟩
